import Mathlib

/-
  Verification of the CloudTrail plugin event source
  (plugins/cloudtrail/pkg/cloudtrail/source.go).

  Shallow embedding conventions:
  * Go byte strings ([]byte) are `List Nat` (one Nat per byte).
  * Go strings used as keys / timestamps are `List Char`.
  * External collaborators (AWS SDK calls, fastjson, gzip, RFC3339
    parsing) are oracles supplied through environment records; the
    control flow of the repository's own code is embedded directly.
-/

/- ### Record splitter: `extractRecordStrings` (source.go lines 616-636)

   The Go loop iterates over the bytes of `jsonStr` keeping a brace
   nesting counter `indentation` (a Go int, so embedded as `Int`).
   On '{' (byte 123): if the depth is 1 the current position becomes
   `entryStart`, then the depth increments.  On '}' (byte 125): the
   depth decrements, and if it is back to 1 and the position is not
   the last byte, the slice jsonStr[entryStart:pos+1] is appended. -/

def noBraceChar (c : Nat) : Bool := decide (c ≠ 123) && decide (c ≠ 125)

def extractLoop (jsonStr : List Nat) :
    List Nat → Nat → Int → Nat → List (List Nat) → List (List Nat)
  | [], _, _, _, res => res
  | char :: rest, pos, indentation, entryStart, res =>
    if char = 123 then
      extractLoop jsonStr rest (pos + 1) (indentation + 1)
        (if indentation = 1 then pos else entryStart) res
    else if char = 125 then
      if indentation - 1 = 1 then
        if pos < jsonStr.length - 1 then
          extractLoop jsonStr rest (pos + 1) (indentation - 1) entryStart
            (res ++ [(jsonStr.drop entryStart).take (pos + 1 - entryStart)])
        else
          extractLoop jsonStr rest (pos + 1) (indentation - 1) entryStart res
      else
        extractLoop jsonStr rest (pos + 1) (indentation - 1) entryStart res
    else
      extractLoop jsonStr rest (pos + 1) indentation entryStart res

def extractRecordStrings (jsonStr : List Nat) : List (List Nat) :=
  extractLoop jsonStr jsonStr 0 0 0 []

/- A well-formed envelope `{"Records":[obj_1,...,obj_K]}` is described
   structurally: braces occur only as the envelope's outer pair and
   inside the record objects, and each record object is brace-balanced
   (`Bal` is the usual matched-bracket grammar over an alphabet whose
   other characters are neutral). -/

inductive Bal : List Nat → Prop where
  | nil : Bal []
  | other {c : Nat} {s : List Nat} : noBraceChar c = true → Bal s → Bal (c :: s)
  | wrap {s t : List Nat} : Bal s → Bal t → Bal (123 :: (s ++ 125 :: t))

/-- `flattenPairs [(o1,s1),...,(oK,sK)] = o1 ++ s1 ++ ... ++ oK ++ sK`:
    the body of the envelope, each record object followed by the neutral
    bytes separating it from the next one (the last separator is the
    closing `]` of the Records array). -/
def flattenPairs : List (List Nat × List Nat) → List Nat
  | [] => []
  | (o, sep) :: rest => o ++ (sep ++ flattenPairs rest)

/- ### Key lister: per-key filtering in `listKeys` (source.go lines 182-226)

   Go strings are `List Char`.  `goStrLt` is Go's `<` on strings
   (lexicographic byte order).  The regular expression
   `.*_CloudTrail_[^_]+_([^_]+)Z_` is embedded by `findCT`: the greedy
   `.*` prefers the last viable occurrence of `_CloudTrail_`, so the
   scan tries later positions first; at a position, `[^_]+` runs are
   forced to be maximal (the next pattern character is `_`), and the
   capture before `Z_` is forced to be the whole maximal `[^_]+` run
   minus a final 'Z'. -/

def goStrLt : List Char → List Char → Bool
  | [], [] => false
  | [], _ :: _ => true
  | _ :: _, [] => false
  | a :: as, b :: bs => if a < b then true else if b < a then false else goStrLt as bs

def ctPat : List Char := "_CloudTrail_".toList

def stripPrefixCT : List Char → List Char → Option (List Char)
  | [], s => some s
  | _ :: _, [] => none
  | p :: ps, c :: cs => if c = p then stripPrefixCT ps cs else none

def ctExtract (s : List Char) : Option (List Char) :=
  let region := s.takeWhile (fun c => decide (c ≠ '_'))
  if region.length = 0 then none
  else
    match s.drop region.length with
    | '_' :: s2 =>
      let run := s2.takeWhile (fun c => decide (c ≠ '_'))
      if 2 ≤ run.length ∧ run.getLast? = some 'Z'
          ∧ (s2.drop run.length).head? = some '_' then
        some run.dropLast
      else none
    | _ => none

def findCT : List Char → Option (List Char)
  | [] => none
  | c :: rest =>
    match findCT rest with
    | some ts => some ts
    | none =>
      match stripPrefixCT ctPat (c :: rest) with
      | some tail => ctExtract tail
      | none => none

def jsonSuffix : List Char := ".json".toList

def gzSuffix : List Char := ".json.gz".toList

/-- The extension filter: `filepath.Ext(*path) == ".json"` is equivalent
    to the path ending in ".json" (the extension includes the final dot),
    and `isCompressed` is `strings.HasSuffix(*path, ".json.gz")`; the key
    is skipped unless one of the two holds. -/
def extOk (pathKey : List Char) : Bool :=
  jsonSuffix.isSuffixOf pathKey || gzSuffix.isSuffixOf pathKey

/-- The per-key body of the listing loop in `listKeys`: the timestamp
    filter (active only when `startTS` is non-empty, and comparing the
    extracted filename timestamp with Go string comparison) followed by
    the extension filter. -/
def keyFilterAccept (startTS endTS pathKey : List Char) : Bool :=
  (if startTS ≠ [] then
    match findCT pathKey with
    | some pathTS =>
      if goStrLt pathTS startTS = true then false
      else if endTS ≠ [] ∧ goStrLt endTS pathTS = true then false
      else true
    | none => true
  else true)
  && extOk pathKey

/-- Embedding of source.go lines 367-385: how the `startTS`/`endTS`
    window strings handed to `listKeys` are computed.
    `regionParamsFound` models `len(inputParams) > 0`; the two
    `Option (List Char)` arguments model `startTime`/`endTime` (`none`
    iff `IsZero()`, otherwise the value formatted with layout
    "20060102T1504").  The error case embeds the start/end order
    check. -/
def computeWindow (regionParamsFound : Bool)
    (startTimeFmt endTimeFmt : Option (List Char)) :
    Except String (List Char × List Char) :=
  if regionParamsFound then
    match startTimeFmt with
    | none => Except.ok ([], [])
    | some sTS =>
      match endTimeFmt with
      | none => Except.ok (sTS, [])
      | some eTS =>
        if goStrLt eTS sTS = true then
          Except.error "start time must be less than end time"
        else Except.ok (sTS, eTS)
  else Except.ok ([], [])

/- ### Source resolver: S3 prefix classification in `openS3`
   (source.go lines 279-341)

   The two anchored regular expressions
     awsLogsRE    = `/AWSLogs/(?:o-[a-z0-9]{10,32}/)?\d{12}/?$`
     awsLogsOrgRE = `/AWSLogs(?:/o-[a-z0-9]{10,32})?/?$`
   are suffix matchers; they are embedded as checks on the reversed
   prefix: discard one optional trailing '/', then match the reversed
   pattern from the front.  `[a-z0-9]` runs are forced to be maximal
   (the neighbouring pattern characters '-', '/' are outside the
   class), and a run longer than 32 cannot match. -/

def isDigitC (c : Char) : Bool := decide ('0' ≤ c) && decide (c ≤ '9')

def isOrgChar (c : Char) : Bool := (decide ('a' ≤ c) && decide (c ≤ 'z')) || isDigitC c

def stripSlashRev (r : List Char) : List Char :=
  match r with
  | c :: t => if c = '/' then t else c :: t
  | [] => []

/-- The reversed form of the optional `o-[a-z0-9]{10,32}/` segment of
    `awsLogsRE` followed by `/AWSLogs/`: a '/' (closing the segment),
    then 10..32 class characters, then "-o" and "/AWSLogs/" reversed. -/
def orgSegRevCheck (r2 : List Char) : Bool :=
  match r2 with
  | c :: r3 =>
    if c = '/' then
      (decide (10 ≤ (r3.takeWhile isOrgChar).length)
          && decide ((r3.takeWhile isOrgChar).length ≤ 32))
        && ("-o/sgoLSWA/".toList.isPrefixOf (r3.drop (r3.takeWhile isOrgChar).length))
    else false
  | [] => false

def awsLogsREMatch (p : List Char) : Bool :=
  let r := stripSlashRev p.reverse
  (decide ((r.take 12).length = 12) && (r.take 12).all isDigitC)
    && (("/sgoLSWA/".toList.isPrefixOf (r.drop 12)) || orgSegRevCheck (r.drop 12))

def awsLogsOrgREMatch (p : List Char) : Bool :=
  let r := stripSlashRev p.reverse
  ("sgoLSWA/".toList.isPrefixOf r)
    || ((decide (10 ≤ (r.takeWhile isOrgChar).length)
          && decide ((r.takeWhile isOrgChar).length ≤ 32))
        && ("-o/sgoLSWA/".toList.isPrefixOf (r.drop (r.takeWhile isOrgChar).length)))

/-- Go `strings.TrimSpace` restricted to ' ' (the only whitespace the
    account-list validation regex admits). -/
def trimSpaceL (s : List Char) : List Char :=
  ((s.dropWhile (fun c => decide (c = ' '))).reverse.dropWhile
      (fun c => decide (c = ' '))).reverse

/-- Go `strings.Split(s, ",")`. -/
def splitComma : List Char → List (List Char)
  | [] => [[]]
  | c :: rest =>
    if c = ',' then [] :: splitComma rest
    else
      match splitComma rest with
      | h :: t => (c :: h) :: t
      | [] => [[c]]

def joinComma : List (List Char) → List Char
  | [] => []
  | [p] => p
  | p :: q :: rest => p ++ ',' :: joinComma (q :: rest)

def addTrailingSlash (p : List Char) : List Char :=
  if ("/".toList).isSuffixOf p then p else p ++ "/".toList

/-- Embedding of the prefix-classification block of `openS3` (source.go
    lines 279-341), producing `intervalPrefixList`.  `discovered` is the
    oracle for the one-level delimited listing used when an organization
    prefix comes with no account allow-list (the `CommonPrefixes`
    returned by S3).  The `none` result embeds the empty-account-list
    error return (unreachable, since `strings.Split` never returns an
    empty slice). -/
def buildIntervalPfxList (pfx acctList : List Char)
    (discovered : List (List Char)) : Option (List (List Char)) :=
  if awsLogsREMatch pfx then
    some [addTrailingSlash pfx ++ "CloudTrail/".toList]
  else if awsLogsOrgREMatch pfx then
    if acctList ≠ [] then
      match (splitComma acctList).map trimSpaceL with
      | [] => none
      | a :: accounts =>
        some ((a :: accounts).map
          (fun account => addTrailingSlash pfx ++ (account ++ "/CloudTrail/".toList)))
    else
      some (discovered.filterMap
        (fun q => if awsLogsREMatch q then some (q ++ "CloudTrail/".toList) else none))
  else some [pfx]

/- ### The pull state machine: `getMoreSQSFiles`, `readNextFileS3` and
   `nextEvent` (source.go lines 420-539, 566-614, 638-770)

   The external calls (SQS receive/delete, S3 object download, local
   file read, gzip inflation, fastjson parsing, RFC3339 parsing, the
   event writer) are oracles collected in `PullEnv`; the `Nat` payloads
   stand for opaque external error values.  The repository's own
   control flow is embedded directly. -/

inductive OpenMode where
  | fileMode
  | s3Mode
  | sqsMode
deriving DecidableEq

structure fileInfo where
  name : List Char
  isCompressed : Bool
deriving DecidableEq

/-- What `nextEvent` observes of a fastjson-parsed record:
    `GetStringBytes` returns nil (`none`) when the field is missing or
    is not a string value. -/
structure RecordView where
  eventTime : Option (List Char)
  eventType : Option (List Char)

/-- The JSON body of a received SQS message, as the code inspects it:
    the "Type" property (`none` when absent), and the results of
    unmarshalling the "Message" payload as an S3 event (bucket/key
    pairs) or as an `snsMessage` (bucket and key list); `none` models
    the respective `json.Unmarshal` failing. -/
structure SqsBody where
  typeProp : Option (List Char)
  s3EventRecords : Option (List (List Char × List Char))
  snsNote : Option (List Char × List (List Char))

structure SqsMessageEnv where
  bodyParse : Option SqsBody

/-- Fatal error values, tagged by the failing call or by the
    code-constructed error they embed. -/
inductive Err where
  | sqsReceive (code : Nat)
  | sqsDelete (code : Nat)
  | sqsBodyUnmarshal
  | sqsNoTypeProperty
  | sqsNotSNS
  | snsUnmarshal
  | s3Download (code : Nat)
  | localRead (code : Nat)
  | eventWrite (code : Nat)
  | eventShortWrite (n len : Nat)
deriving DecidableEq

structure PullEnv where
  sqsReceive : Except Nat (Option SqsMessageEnv)
  sqsDelete : Except Nat Unit
  s3Download : List Char → Except Nat (List Nat)
  readLocal : List Char → Except Nat (List Nat)
  gunzip : List Nat → Option (List Nat)
  jsonParse : List Nat → Option RecordView
  parseRFC3339 : List Char → Option Nat
  write : List Nat → Except Nat Nat

structure PluginConfig where
  s3DownloadConcurrency : Nat
  sqsDelete : Bool
  useS3SNS : Bool

structure InstanceState where
  openMode : OpenMode
  files : List fileInfo
  curFileNum : Nat
  evtJSONStrings : List (List Nat)
  evtJSONListPos : Nat
  bucket : List Char
  lastDownloadedFileNum : Nat
  nFilledBufs : Nat
  curBuf : Nat
  downloadBufs : List (List Nat)
deriving DecidableEq

/-- The four observable outcomes of one pull: a written event with its
    timestamp, `sdk.ErrEOF`, `sdk.ErrTimeout`, or a fatal error. -/
inductive SdkResult where
  | ok (data : List Nat) (ts : Nat)
  | eof
  | timeout
  | err (e : Err)
deriving DecidableEq

def isCompressedName (key : List Char) : Bool := gzSuffix.isSuffixOf key

/-- Embedding of `getMoreSQSFiles` (source.go lines 420-539).  On every
    error path the Go function returns before mutating the instance, so
    the error cases carry no state. -/
def getMoreSQSFiles (cfg : PluginConfig) (env : PullEnv) (st : InstanceState) :
    Except Err InstanceState :=
  match env.sqsReceive with
  | Except.error c => Except.error (Err.sqsReceive c)
  | Except.ok none => Except.ok st
  | Except.ok (some msg) =>
    match (if cfg.sqsDelete then env.sqsDelete else Except.ok ()) with
    | Except.error c => Except.error (Err.sqsDelete c)
    | Except.ok _ =>
      match msg.bodyParse with
      | none => Except.error Err.sqsBodyUnmarshal
      | some body =>
        match body.typeProp with
        | none => Except.error Err.sqsNoTypeProperty
        | some t =>
          if t ≠ "Notification".toList then Except.error Err.sqsNotSNS
          else if cfg.useS3SNS then
            match body.s3EventRecords with
            | none => Except.error Err.snsUnmarshal
            | some recs =>
              Except.ok (recs.foldl (fun s bk =>
                { s with bucket := bk.1,
                         files := s.files ++ [⟨bk.2, isCompressedName bk.2⟩] }) st)
          else
            match body.snsNote with
            | none => Except.error Err.snsUnmarshal
            | some note =>
              Except.ok { st with
                bucket := note.1,
                files := st.files
                  ++ note.2.map (fun key => ⟨key, isCompressedName key⟩) }

/-- One concurrent download wave: slot `j` receives the body of the
    `j`-th file of the batch; a failed fetch leaves its slot untouched
    and records its error (they are all drained at the join barrier,
    and `readNextFileS3` observes one of them). -/
def downloadBatch (env : PullEnv) : List fileInfo → Nat → List (List Nat) →
    (List (List Nat) × List Err)
  | [], _, bufs => (bufs, [])
  | f :: rest, j, bufs =>
    match env.s3Download f.name with
    | Except.ok body => downloadBatch env rest (j + 1) (bufs.set j body)
    | Except.error c =>
      match downloadBatch env rest (j + 1) bufs with
      | (b, es) => (b, Err.s3Download c :: es)

/-- Embedding of `readNextFileS3` (source.go lines 584-610): serve the
    next filled buffer if one remains; otherwise start a new wave of
    `min(S3DownloadConcurrency, len(files) - lastDownloadedFileNum)`
    downloads, set `nFilledBufs` before the wave, and on a clean wave
    advance `lastDownloadedFileNum` by the batch size, reset `curBuf`
    to 1 and return slot 0. -/
def readNextFileS3 (cfg : PluginConfig) (env : PullEnv) (st : InstanceState) :
    (Except Err (List Nat)) × InstanceState :=
  if st.curBuf < st.nFilledBufs then
    (Except.ok (st.downloadBufs.getD st.curBuf []),
     { st with curBuf := st.curBuf + 1 })
  else
    match downloadBatch env
        ((st.files.drop st.lastDownloadedFileNum).take
          (min cfg.s3DownloadConcurrency
            (st.files.length - st.lastDownloadedFileNum)))
        0 st.downloadBufs with
    | (newBufs, e :: _) =>
      (Except.error e,
       { st with
           nFilledBufs := min cfg.s3DownloadConcurrency
             (st.files.length - st.lastDownloadedFileNum),
           downloadBufs := newBufs })
    | (newBufs, []) =>
      (Except.ok (newBufs.getD 0 []),
       { st with
           nFilledBufs := min cfg.s3DownloadConcurrency
             (st.files.length - st.lastDownloadedFileNum),
           downloadBufs := newBufs,
           lastDownloadedFileNum := st.lastDownloadedFileNum
             + min cfg.s3DownloadConcurrency
                 (st.files.length - st.lastDownloadedFileNum),
           curBuf := 1 })

/-- The mode dispatch of the file-read step of `nextEvent` (source.go
    lines 670-675): `readNextFileS3` for the S3 and SQS modes, a plain
    file read for the local mode. -/
def readFileStep (cfg : PluginConfig) (env : PullEnv) (file : fileInfo)
    (st : InstanceState) : (Except Err (List Nat)) × InstanceState :=
  match st.openMode with
  | OpenMode.s3Mode => readNextFileS3 cfg env st
  | OpenMode.sqsMode => readNextFileS3 cfg env st
  | OpenMode.fileMode =>
    match env.readLocal file.name with
    | Except.error c => (Except.error (Err.localRead c), st)
    | Except.ok b => (Except.ok b, st)

/-- The record-emission tail of `nextEvent` (source.go lines 726-769),
    after the record has been parsed and the list position advanced:
    missing/unparsable `eventTime`, missing `eventType`, or the insight
    sentinel each yield `sdk.ErrTimeout`; a write failure or a short
    write is a fatal error; otherwise the original record bytes are
    emitted with the derived timestamp. -/
def popRecord2 (env : PullEnv) (evtData : List Nat) (cr : RecordView)
    (st : InstanceState) : SdkResult × InstanceState :=
  match cr.eventTime with
  | none => (SdkResult.timeout, st)
  | some timeVal =>
    match env.parseRFC3339 timeVal with
    | none => (SdkResult.timeout, st)
    | some t1 =>
      match cr.eventType with
      | none => (SdkResult.timeout, st)
      | some ets =>
        if ets = "AwsCloudTrailInsight".toList then (SdkResult.timeout, st)
        else
          match env.write evtData with
          | Except.error c => (SdkResult.err (Err.eventWrite c), st)
          | Except.ok n =>
            if n < evtData.length then
              (SdkResult.err (Err.eventShortWrite n evtData.length), st)
            else (SdkResult.ok evtData t1, st)

/-- The record-extraction step of `nextEvent` (source.go lines 710-725):
    with a non-empty record buffer, take the record at the list
    position; a JSON parse failure advances the position and yields
    `sdk.ErrTimeout`, otherwise the position advances and the record is
    examined further. -/
def popRecord (env : PullEnv) (st : InstanceState) : SdkResult × InstanceState :=
  if st.evtJSONStrings.length ≠ 0 then
    match env.jsonParse (st.evtJSONStrings.getD st.evtJSONListPos []) with
    | none => (SdkResult.timeout, { st with evtJSONListPos := st.evtJSONListPos + 1 })
    | some cr =>
      popRecord2 env (st.evtJSONStrings.getD st.evtJSONListPos []) cr
        { st with evtJSONListPos := st.evtJSONListPos + 1 }
  else (SdkResult.timeout, st)

/-- The file-opening part of `nextEvent` (source.go lines 667-707),
    entered with `curFileNum < len(files)`: take the file, advance the
    cursor, read the bytes, inflate when the file is flagged compressed
    (a corrupt stream yields `sdk.ErrTimeout`), then split into a fresh
    record buffer.  `Except.error` carries an early return. -/
def openNextFile (cfg : PluginConfig) (env : PullEnv) (st : InstanceState) :
    Except (SdkResult × InstanceState) InstanceState :=
  match readFileStep cfg env (st.files.getD st.curFileNum ⟨[], false⟩)
      { st with curFileNum := st.curFileNum + 1 } with
  | (Except.error e, st₃) => Except.error (SdkResult.err e, st₃)
  | (Except.ok tmpStr, st₃) =>
    match (if (st.files.getD st.curFileNum ⟨[], false⟩).isCompressed
        then env.gunzip tmpStr else some tmpStr) with
    | none => Except.error (SdkResult.timeout, st₃)
    | some data =>
      Except.ok { st₃ with
        evtJSONStrings := extractRecordStrings data, evtJSONListPos := 0 }

/-- The refill phase of `nextEvent` (source.go lines 645-708): when the
    record buffer is exhausted, pull file names from the queue if in
    SQS mode (an empty poll yields `sdk.ErrTimeout`, a poll error is
    fatal), return `sdk.ErrEOF` for non-queue modes with no files left,
    and otherwise open the next file. -/
def refill (cfg : PluginConfig) (env : PullEnv) (st : InstanceState) :
    Except (SdkResult × InstanceState) InstanceState :=
  if st.curFileNum ≥ st.files.length then
    if st.openMode = OpenMode.sqsMode then
      match getMoreSQSFiles cfg env st with
      | Except.error e => Except.error (SdkResult.err e, st)
      | Except.ok st₁ =>
        if st₁.curFileNum ≥ st₁.files.length then
          Except.error (SdkResult.timeout, st₁)
        else openNextFile cfg env st₁
    else Except.error (SdkResult.eof, st)
  else openNextFile cfg env st

/-- Embedding of `nextEvent` (source.go lines 638-770). -/
def nextEvent (cfg : PluginConfig) (env : PullEnv) (st : InstanceState) :
    SdkResult × InstanceState :=
  if st.evtJSONListPos ≥ st.evtJSONStrings.length then
    match refill cfg env st with
    | Except.error out => out
    | Except.ok st₂ => popRecord env st₂
  else popRecord env st

/-- A sequence of pulls, one environment per pull. -/
def pulls (cfg : PluginConfig) : List PullEnv → InstanceState →
    (List SdkResult × InstanceState)
  | [], st => ([], st)
  | env :: rest, st =>
    match nextEvent cfg env st with
    | (r, st₁) =>
      match pulls cfg rest st₁ with
      | (rs, stF) => (r :: rs, stF)

/- ### Lemmas about the splitter -/

theorem extractLoop_open (J rest : List Nat) (pos : Nat) (ind : Int) (es : Nat)
    (res : List (List Nat)) :
    extractLoop J (123 :: rest) pos ind es res
      = extractLoop J rest (pos + 1) (ind + 1) (if ind = 1 then pos else es) res := by
  simp [extractLoop]

theorem extractLoop_close (J rest : List Nat) (pos : Nat) (ind : Int) (es : Nat)
    (res : List (List Nat)) :
    extractLoop J (125 :: rest) pos ind es res
      = if ind - 1 = 1 then
          (if pos < J.length - 1 then
            extractLoop J rest (pos + 1) (ind - 1) es
              (res ++ [(J.drop es).take (pos + 1 - es)])
          else extractLoop J rest (pos + 1) (ind - 1) es res)
        else extractLoop J rest (pos + 1) (ind - 1) es res := by
  simp [extractLoop]

theorem extractLoop_other (J : List Nat) (c : Nat) (rest : List Nat) (pos : Nat)
    (ind : Int) (es : Nat) (res : List (List Nat))
    (h1 : ¬ c = 123) (h2 : ¬ c = 125) :
    extractLoop J (c :: rest) pos ind es res
      = extractLoop J rest (pos + 1) ind es res := by
  simp [extractLoop, h1, h2]

theorem extractLoop_noBrace (J : List Nat) (h : List Nat) :
    ∀ (rest : List Nat) (pos : Nat) (ind : Int) (es : Nat) (res : List (List Nat)),
    (∀ c ∈ h, noBraceChar c = true) →
    extractLoop J (h ++ rest) pos ind es res
      = extractLoop J rest (pos + h.length) ind es res := by
  induction h with
  | nil => intro rest pos ind es res _; simp
  | cons c h ih =>
    intro rest pos ind es res hc
    have hc1 : noBraceChar c = true := hc c (by simp)
    simp only [noBraceChar, Bool.and_eq_true, decide_eq_true_eq] at hc1
    show extractLoop J (c :: (h ++ rest)) pos ind es res = _
    rw [extractLoop_other J c (h ++ rest) pos ind es res hc1.1 hc1.2]
    rw [ih rest (pos + 1) ind es res (fun d hd => hc d (by simp [hd]))]
    have harith : pos + 1 + h.length = pos + (c :: h).length := by
      simp only [List.length_cons]; omega
    rw [harith]

theorem extractLoop_bal (J : List Nat) :
    ∀ {inner : List Nat}, Bal inner →
    ∀ (rest : List Nat) (pos : Nat) (ind : Int) (es : Nat) (res : List (List Nat)),
    2 ≤ ind →
    extractLoop J (inner ++ rest) pos ind es res
      = extractLoop J rest (pos + inner.length) ind es res := by
  intro inner hb
  induction hb with
  | nil => intro rest pos ind es res _; simp
  | @other c s hc _ ih =>
    intro rest pos ind es res hind
    simp only [noBraceChar, Bool.and_eq_true, decide_eq_true_eq] at hc
    show extractLoop J (c :: (s ++ rest)) pos ind es res = _
    rw [extractLoop_other J c (s ++ rest) pos ind es res hc.1 hc.2]
    rw [ih rest (pos + 1) ind es res hind]
    have harith : pos + 1 + s.length = pos + (c :: s).length := by
      simp only [List.length_cons]; omega
    rw [harith]
  | @wrap s t _ _ ihs iht =>
    intro rest pos ind es res hind
    have hshape : (123 :: (s ++ 125 :: t)) ++ rest
        = 123 :: (s ++ (125 :: (t ++ rest))) := by simp
    rw [hshape]
    rw [extractLoop_open J (s ++ (125 :: (t ++ rest))) pos ind es res]
    rw [if_neg (by omega : ¬ ind = 1)]
    rw [ihs (125 :: (t ++ rest)) (pos + 1) (ind + 1) es res (by omega)]
    rw [extractLoop_close J (t ++ rest) (pos + 1 + s.length) (ind + 1) es res]
    rw [if_neg (by omega : ¬ ind + 1 - 1 = 1)]
    rw [iht rest (pos + 1 + s.length + 1) (ind + 1 - 1) es res (by omega)]
    have hind' : ind + 1 - 1 = ind := by omega
    rw [hind']
    have harith : pos + 1 + s.length + 1 + t.length
        = pos + (123 :: (s ++ 125 :: t)).length := by
      simp only [List.length_cons, List.length_append]; omega
    rw [harith]

theorem extractLoop_records (J : List Nat) :
    ∀ (pairs : List (List Nat × List Nat)) (pos : Nat) (es : Nat)
      (res : List (List Nat)),
    (∀ p ∈ pairs,
        (∃ s, Bal s ∧ p.1 = 123 :: (s ++ [125]))
          ∧ (∀ c ∈ p.2, noBraceChar c = true)) →
    J.drop pos = flattenPairs pairs ++ [125] →
    extractLoop J (flattenPairs pairs ++ [125]) pos 1 es res
      = res ++ pairs.map Prod.fst := by
  intro pairs
  induction pairs with
  | nil =>
    intro pos es res _ _
    simp only [flattenPairs, List.nil_append, List.map_nil, List.append_nil]
    rw [extractLoop_close J [] pos 1 es res]
    rw [if_neg (by decide : ¬ (1 : Int) - 1 = 1)]
    rfl
  | cons pr rest ih =>
    intro pos es res hp hdrop
    obtain ⟨⟨s, hbs, ho⟩, hsep⟩ := hp pr (by simp)
    have hshape : flattenPairs (pr :: rest) ++ [125]
        = 123 :: (s ++ (125 :: (pr.2 ++ (flattenPairs rest ++ [125])))) := by
      simp only [flattenPairs, ho]
      simp [List.append_assoc]
    rw [hshape] at hdrop ⊢
    -- length bookkeeping
    have hlen := congrArg List.length hdrop
    simp only [List.length_drop, List.length_cons, List.length_append] at hlen
    -- step over the opening '{' of the record (depth 1 → 2)
    rw [extractLoop_open J (s ++ (125 :: (pr.2 ++ (flattenPairs rest ++ [125]))))
        pos 1 es res]
    rw [if_pos rfl]
    -- step over the balanced inside of the record at depth 2
    rw [extractLoop_bal J hbs (125 :: (pr.2 ++ (flattenPairs rest ++ [125])))
        (pos + 1) (1 + 1) pos res (by omega)]
    -- step over the closing '}' of the record (depth 2 → 1): append
    rw [extractLoop_close J (pr.2 ++ (flattenPairs rest ++ [125]))
        (pos + 1 + s.length) (1 + 1) pos res]
    rw [if_pos (by decide : (1 : Int) + 1 - 1 = 1),
        if_pos (by omega : pos + 1 + s.length < J.length - 1)]
    have hslice : (J.drop pos).take (pos + 1 + s.length + 1 - pos)
        = 123 :: (s ++ [125]) := by
      rw [hdrop]
      have harith : pos + 1 + s.length + 1 - pos = s.length + 1 + 1 := by omega
      rw [harith]
      simp only [List.take_succ_cons]
      rw [(by simp : s.length + 1 = s.length + 1), List.take_append]
      simp
    rw [hslice, ← ho]
    have hone : (1 : Int) + 1 - 1 = 1 := by decide
    rw [hone]
    -- step over the neutral separator after the record
    rw [extractLoop_noBrace J pr.2 (flattenPairs rest ++ [125])
        (pos + 1 + s.length + 1) 1 pos (res ++ [pr.1]) hsep]
    -- the tail of the envelope, by the induction hypothesis
    have hdrop2 : J.drop pos
        = (123 :: (s ++ 125 :: pr.2)) ++ (flattenPairs rest ++ [125]) := by
      rw [hdrop]; simp
    have hdrop3 : J.drop (pos + (123 :: (s ++ 125 :: pr.2)).length)
        = flattenPairs rest ++ [125] := by
      rw [← List.drop_drop, hdrop2, List.drop_left]
    have harith : pos + 1 + s.length + 1 + pr.2.length
        = pos + (123 :: (s ++ 125 :: pr.2)).length := by
      simp only [List.length_cons, List.length_append]; omega
    rw [harith]
    rw [ih (pos + (123 :: (s ++ 125 :: pr.2)).length) pos (res ++ [pr.1])
        (fun q hq => hp q (by simp [hq])) hdrop3]
    simp

/-- C1: for every well-formed CloudTrail envelope
    `{"Records":[obj_1,...,obj_K]}` — expressed structurally as an outer
    `{ ... }` pair containing a brace-free header, then the K record
    objects (each an opening `{`, a brace-balanced inside, a closing `}`)
    interleaved with brace-free separators — `extractRecordStrings`
    returns exactly the K objects, in source order, each the exact
    original byte range from its opening brace to its matching closing
    brace inclusive; K = 0 yields the empty list. -/
theorem C1_record_splitter (hdr : List Nat) (pairs : List (List Nat × List Nat))
    (hhdr : ∀ c ∈ hdr, noBraceChar c = true)
    (hpairs : ∀ p ∈ pairs,
        (∃ s, Bal s ∧ p.1 = 123 :: (s ++ [125]))
          ∧ (∀ c ∈ p.2, noBraceChar c = true)) :
    extractRecordStrings (123 :: (hdr ++ (flattenPairs pairs ++ [125])))
      = pairs.map Prod.fst := by
  unfold extractRecordStrings
  rw [extractLoop_open _ (hdr ++ (flattenPairs pairs ++ [125])) 0 0 0 []]
  rw [if_neg (by decide : ¬ (0 : Int) = 1)]
  rw [extractLoop_noBrace _ hdr (flattenPairs pairs ++ [125]) 1 (0 + 1) 0 [] hhdr]
  have hone : (0 : Int) + 1 = 1 := by decide
  rw [hone]
  have hdrop : (123 :: (hdr ++ (flattenPairs pairs ++ [125]))).drop (1 + hdr.length)
      = flattenPairs pairs ++ [125] := by
    have harith : 1 + hdr.length = hdr.length + 1 := by omega
    rw [harith]
    simp only [List.drop_succ_cons]
    exact List.drop_left hdr _
  rw [extractLoop_records _ pairs (1 + hdr.length) 0 [] hpairs hdrop]
  simp

/-- Every brace-free byte string is balanced. -/
theorem Bal_noBrace (s : List Nat) (h : ∀ c ∈ s, noBraceChar c = true) : Bal s := by
  induction s with
  | nil => exact Bal.nil
  | cons c s ih => exact Bal.other (h c (by simp)) (ih (fun d hd => h d (by simp [hd])))

/-- Witness for C1: the envelope bytes of
    `{"Records":[{"a":1},{"b":{}}]}` split into exactly the two records
    `{"a":1}` and `{"b":{}}`. -/
theorem C1_record_splitter_witness :
    extractRecordStrings
        [123, 34, 82, 101, 99, 111, 114, 100, 115, 34, 58, 91,
         123, 34, 97, 34, 58, 49, 125, 44,
         123, 34, 98, 34, 58, 123, 125, 125, 93, 125]
      = [[123, 34, 97, 34, 58, 49, 125],
         [123, 34, 98, 34, 58, 123, 125, 125]] := by
  have h := C1_record_splitter
      [34, 82, 101, 99, 111, 114, 100, 115, 34, 58, 91]
      [([123, 34, 97, 34, 58, 49, 125], [44]),
       ([123, 34, 98, 34, 58, 123, 125, 125], [93])]
      (by decide)
      (by
        intro p hp
        fin_cases hp
        · exact ⟨⟨[34, 97, 34, 58, 49], Bal_noBrace _ (by decide), rfl⟩, by decide⟩
        · exact ⟨⟨[34, 98, 34, 58, 123, 125],
            Bal.other (by decide) (Bal.other (by decide) (Bal.other (by decide)
              (Bal.other (by decide) (Bal.wrap Bal.nil Bal.nil)))), rfl⟩, by decide⟩)
  simpa using h

/- ### Lemmas about the key filter -/

theorem goStrLt_irrefl : ∀ s : List Char, goStrLt s s = false := by
  intro s
  induction s with
  | nil => rfl
  | cons a s ih => simp [goStrLt, lt_irrefl, ih]

/-- C5: with a timestamp window [startTS, endTS] set (both non-empty and
    startTS ≤ endTS, as validated by `openS3`), a key whose embedded
    CloudTrail filename timestamp equals startTS is retained, one whose
    timestamp equals endTS is retained, one strictly before startTS or
    strictly after endTS is dropped, and a key with no recognizable
    embedded timestamp is retained subject only to the extension
    filter. -/
theorem C5_key_timestamp_window :
    (∀ sTS eTS pathKey : List Char, sTS ≠ [] → eTS ≠ [] →
      goStrLt eTS sTS = false →
      findCT pathKey = some sTS →
      keyFilterAccept sTS eTS pathKey = extOk pathKey)
    ∧ (∀ sTS eTS pathKey : List Char, sTS ≠ [] → eTS ≠ [] →
      goStrLt eTS sTS = false →
      findCT pathKey = some eTS →
      keyFilterAccept sTS eTS pathKey = extOk pathKey)
    ∧ (∀ sTS eTS pathKey ts : List Char, sTS ≠ [] →
      findCT pathKey = some ts → goStrLt ts sTS = true →
      keyFilterAccept sTS eTS pathKey = false)
    ∧ (∀ sTS eTS pathKey ts : List Char, sTS ≠ [] → eTS ≠ [] →
      findCT pathKey = some ts → goStrLt eTS ts = true →
      keyFilterAccept sTS eTS pathKey = false)
    ∧ (∀ sTS eTS pathKey : List Char, findCT pathKey = none →
      keyFilterAccept sTS eTS pathKey = extOk pathKey) := by
  refine ⟨?_, ?_, ?_, ?_, ?_⟩
  · intro sTS eTS pathKey hs he hse hf
    simp [keyFilterAccept, hs, hf, goStrLt_irrefl, hse]
  · intro sTS eTS pathKey hs he hse hf
    simp [keyFilterAccept, hs, hf, goStrLt_irrefl, hse]
  · intro sTS eTS pathKey ts hs hf hlt
    simp [keyFilterAccept, hs, hf, hlt]
  · intro sTS eTS pathKey ts hs he hf hgt
    by_cases hlt : goStrLt ts sTS = true
    · simp [keyFilterAccept, hs, hf, hlt]
    · simp only [Bool.not_eq_true] at hlt
      simp [keyFilterAccept, hs, hf, hlt, he, hgt]
  · intro sTS eTS pathKey hf
    by_cases hs : sTS = []
    · simp [keyFilterAccept, hs]
    · simp [keyFilterAccept, hs, hf]

/-- Witness for C5 at a concrete window [20210803T1200, 20210803T1300]
    and five concrete keys (timestamp equal to start, equal to end,
    strictly before start, strictly after end, and none at all). -/
theorem C5_key_timestamp_window_witness :
    keyFilterAccept ("20210803T1200".toList) ("20210803T1300".toList)
        ("x_CloudTrail_us-east-1_20210803T1200Z_a.json.gz".toList)
      = extOk ("x_CloudTrail_us-east-1_20210803T1200Z_a.json.gz".toList)
    ∧ extOk ("x_CloudTrail_us-east-1_20210803T1200Z_a.json.gz".toList) = true
    ∧ keyFilterAccept ("20210803T1200".toList) ("20210803T1300".toList)
        ("x_CloudTrail_us-east-1_20210803T1300Z_a.json.gz".toList)
      = extOk ("x_CloudTrail_us-east-1_20210803T1300Z_a.json.gz".toList)
    ∧ keyFilterAccept ("20210803T1200".toList) ("20210803T1300".toList)
        ("x_CloudTrail_us-east-1_20200101T0000Z_a.json.gz".toList)
      = false
    ∧ keyFilterAccept ("20210803T1200".toList) ("20210803T1300".toList)
        ("x_CloudTrail_us-east-1_20220101T0000Z_a.json.gz".toList)
      = false
    ∧ keyFilterAccept ("20210803T1200".toList) ("20210803T1300".toList)
        ("plain/key.json".toList)
      = extOk ("plain/key.json".toList) :=
  ⟨C5_key_timestamp_window.1 _ _ _ (by decide) (by decide) (by decide) (by decide),
   by decide,
   C5_key_timestamp_window.2.1 _ _ _ (by decide) (by decide) (by decide) (by decide),
   C5_key_timestamp_window.2.2.1 _ _ _ ("20200101T0000".toList)
     (by decide) (by decide) (by decide),
   C5_key_timestamp_window.2.2.2.1 _ _ _ ("20220101T0000".toList)
     (by decide) (by decide) (by decide) (by decide),
   C5_key_timestamp_window.2.2.2.2 _ _ _ (by decide)⟩

/-- C10: when the interval has no start boundary (zero start time),
    even if an end boundary is set, or when the verbatim-prefix fallback
    listing path is taken (no region prefixes discovered), the computed
    window strings are both empty, and with an empty `startTS` the key
    lister applies no filename-timestamp filtering at all: every key is
    accepted exactly when its extension matches, regardless of any
    embedded timestamp. -/
theorem C10_no_start_no_timestamp_filter :
    (∀ endTimeFmt : Option (List Char),
      computeWindow true none endTimeFmt = Except.ok ([], []))
    ∧ (∀ startTimeFmt endTimeFmt : Option (List Char),
      computeWindow false startTimeFmt endTimeFmt = Except.ok ([], []))
    ∧ (∀ eTS pathKey : List Char,
      keyFilterAccept [] eTS pathKey = extOk pathKey) := by
  refine ⟨?_, ?_, ?_⟩
  · intro e; rfl
  · intro s e; rfl
  · intro eTS pathKey; simp [keyFilterAccept]

/-- Witness for C10: with no start boundary the window is empty even
    though an end boundary exists, and a key whose embedded timestamp
    (20220101T0000) lies strictly after that end boundary is still
    accepted (its extension matches). -/
theorem C10_no_start_no_timestamp_filter_witness :
    computeWindow true none (some ("20210803T1300".toList)) = Except.ok ([], [])
    ∧ computeWindow false (some ("20210803T1200".toList))
        (some ("20210803T1300".toList)) = Except.ok ([], [])
    ∧ keyFilterAccept [] ("20210803T1300".toList)
        ("x_CloudTrail_us-east-1_20220101T0000Z_a.json.gz".toList)
      = extOk ("x_CloudTrail_us-east-1_20220101T0000Z_a.json.gz".toList)
    ∧ extOk ("x_CloudTrail_us-east-1_20220101T0000Z_a.json.gz".toList) = true :=
  ⟨C10_no_start_no_timestamp_filter.1 _,
   C10_no_start_no_timestamp_filter.2.1 _ _,
   C10_no_start_no_timestamp_filter.2.2 _ _,
   by decide⟩

/- ### Lemmas for the prefix classifier -/

theorem take_append_of_length {α : Type} (l₁ l₂ : List α) (n : Nat)
    (h : l₁.length = n) : (l₁ ++ l₂).take n = l₁ := by
  subst h; exact List.take_left l₁ l₂

theorem drop_append_of_length {α : Type} (l₁ l₂ : List α) (n : Nat)
    (h : l₁.length = n) : (l₁ ++ l₂).drop n = l₂ := by
  subst h; exact List.drop_left l₁ l₂

theorem takeWhile_append_stop {α : Type} (p : α → Bool) (l₁ : List α) (c : α)
    (l₂ : List α) (h1 : ∀ x ∈ l₁, p x = true) (h2 : p c = false) :
    (l₁ ++ c :: l₂).takeWhile p = l₁ := by
  induction l₁ with
  | nil => simp [List.takeWhile_cons, h2]
  | cons a l ih =>
    have ha : p a = true := h1 a (by simp)
    simp [List.takeWhile_cons, ha, ih (fun x hx => h1 x (by simp [hx]))]

theorem dropWhile_append_stop {α : Type} (p : α → Bool) (l₁ : List α) (c : α)
    (l₂ : List α) (h1 : ∀ x ∈ l₁, p x = true) (h2 : p c = false) :
    (l₁ ++ c :: l₂).dropWhile p = c :: l₂ := by
  induction l₁ with
  | nil => simp [List.dropWhile_cons, h2]
  | cons a l ih =>
    have ha : p a = true := h1 a (by simp)
    simp [List.dropWhile_cons, ha, ih (fun x hx => h1 x (by simp [hx]))]

theorem isPre_self_append (l₁ l₂ : List Char) : l₁.isPrefixOf (l₁ ++ l₂) = true := by
  rw [List.isPrefixOf_iff_prefix]
  exact List.prefix_append l₁ l₂

theorem isPre_cons_ne (a b : Char) (l₁ l₂ : List Char) (h : ¬ a = b) :
    (a :: l₁).isPrefixOf (b :: l₂) = false := by
  rw [Bool.eq_false_iff]
  intro hc
  rw [List.isPrefixOf_iff_prefix, List.cons_prefix_cons] at hc
  exact h hc.1

theorem isDigitC_ne_slash {c : Char} (h : isDigitC c = true) : ¬ c = '/' := by
  intro heq; rw [heq] at h; exact absurd h (by decide)

theorem isDigitC_ne_comma {c : Char} (h : isDigitC c = true) : ¬ c = ',' := by
  intro heq; rw [heq] at h; exact absurd h (by decide)

theorem isDigitC_ne_space {c : Char} (h : isDigitC c = true) : ¬ c = ' ' := by
  intro heq; rw [heq] at h; exact absurd h (by decide)

theorem isOrgChar_ne_slash {c : Char} (h : isOrgChar c = true) : ¬ c = '/' := by
  intro heq; rw [heq] at h; exact absurd h (by decide)

theorem stripSlashRev_ne (c : Char) (t : List Char) (h : ¬ c = '/') :
    stripSlashRev (c :: t) = c :: t := by
  simp [stripSlashRev, h]

theorem orgSegRevCheck_cons_ne (c : Char) (r3 : List Char) (h : ¬ c = '/') :
    orgSegRevCheck (c :: r3) = false := by
  simp [orgSegRevCheck, h]

theorem rev_digit_cons (ds : List Char) (hds : ds.length = 12)
    (hdig : ∀ c ∈ ds, isDigitC c = true) :
    ∃ d w, ds.reverse = d :: w ∧ isDigitC d = true := by
  cases hdw : ds.reverse with
  | nil =>
    exfalso
    have hnil : ds = [] := by simpa using congrArg List.reverse hdw
    rw [hnil] at hds; simp at hds
  | cons d w =>
    refine ⟨d, w, rfl, ?_⟩
    have hdm : d ∈ ds.reverse := by rw [hdw]; simp
    exact hdig d (List.mem_reverse.mp hdm)

theorem rev_org_cons (org : List Char) (h10 : 10 ≤ org.length)
    (horg : ∀ c ∈ org, isOrgChar c = true) :
    ∃ d w, org.reverse = d :: w ∧ isOrgChar d = true := by
  cases hdw : org.reverse with
  | nil =>
    exfalso
    have hnil : org = [] := by simpa using congrArg List.reverse hdw
    rw [hnil] at h10; simp at h10
  | cons d w =>
    refine ⟨d, w, rfl, ?_⟩
    have hdm : d ∈ org.reverse := by rw [hdw]; simp
    exact horg d (List.mem_reverse.mp hdm)

theorem stripRev_org_shape (base org tail : List Char)
    (horg : ∀ c ∈ org, isOrgChar c = true) (h10 : 10 ≤ org.length)
    (htail : tail = [] ∨ tail = ['/']) :
    stripSlashRev ((base ++ ("/AWSLogs/o-".toList ++ (org ++ tail))).reverse)
      = org.reverse ++ ("-o/sgoLSWA/".toList ++ base.reverse) := by
  obtain ⟨d, w, hdw, hd⟩ := rev_org_cons org h10 horg
  have hoa : ("/AWSLogs/o-".toList).reverse = "-o/sgoLSWA/".toList := by decide
  rcases htail with h | h
  · subst h
    have hr : (base ++ ("/AWSLogs/o-".toList ++ (org ++ ([] : List Char)))).reverse
        = d :: (w ++ ("-o/sgoLSWA/".toList ++ base.reverse)) := by
      simp [List.reverse_append, hoa, hdw]
    rw [hr, stripSlashRev_ne d _ (isOrgChar_ne_slash hd), ← List.cons_append, ← hdw]
  · subst h
    have hr : (base ++ ("/AWSLogs/o-".toList ++ (org ++ ['/']))).reverse
        = '/' :: (org.reverse ++ ("-o/sgoLSWA/".toList ++ base.reverse)) := by
      simp [List.reverse_append, hoa]
    rw [hr]; rfl

theorem awsLogsREMatch_pos (base mid ds tail : List Char)
    (hds : ds.length = 12) (hdig : ∀ c ∈ ds, isDigitC c = true)
    (hmid : mid = []
      ∨ ∃ org, mid = 'o' :: ('-' :: (org ++ ['/']))
          ∧ (∀ c ∈ org, isOrgChar c = true) ∧ 10 ≤ org.length ∧ org.length ≤ 32)
    (htail : tail = [] ∨ tail = ['/']) :
    awsLogsREMatch (base ++ ("/AWSLogs/".toList ++ (mid ++ (ds ++ tail)))) = true := by
  obtain ⟨d, w, hdw, hd⟩ := rev_digit_cons ds hds hdig
  have hA : ("/AWSLogs/".toList).reverse = "/sgoLSWA/".toList := by decide
  have hstrip : stripSlashRev ((base ++ ("/AWSLogs/".toList ++ (mid ++ (ds ++ tail)))).reverse)
      = ds.reverse ++ (mid.reverse ++ ("/sgoLSWA/".toList ++ base.reverse)) := by
    rcases htail with h | h
    · subst h
      have hr : (base ++ ("/AWSLogs/".toList ++ (mid ++ (ds ++ ([] : List Char))))).reverse
          = d :: (w ++ (mid.reverse ++ ("/sgoLSWA/".toList ++ base.reverse))) := by
        simp [List.reverse_append, hA, hdw]
      rw [hr, stripSlashRev_ne d _ (isDigitC_ne_slash hd), ← List.cons_append, ← hdw]
    · subst h
      have hr : (base ++ ("/AWSLogs/".toList ++ (mid ++ (ds ++ ['/'])))).reverse
          = '/' :: (ds.reverse ++ (mid.reverse ++ ("/sgoLSWA/".toList ++ base.reverse))) := by
        simp [List.reverse_append, hA]
      rw [hr]; rfl
  have hlen12 : (ds.reverse).length = 12 := by simp [hds]
  have hall : ds.reverse.all isDigitC = true := by
    rw [List.all_eq_true]; intro x hx; exact hdig x (List.mem_reverse.mp hx)
  simp only [awsLogsREMatch]
  rw [hstrip]
  rw [take_append_of_length ds.reverse _ 12 hlen12,
      drop_append_of_length ds.reverse _ 12 hlen12, hall]
  rcases hmid with h | ⟨org, hmideq, horg, h10, h32⟩
  · subst h
    simp [isPre_self_append, hds]
  · subst hmideq
    have hM : ('o' :: ('-' :: (org ++ ['/']))).reverse ++ ("/sgoLSWA/".toList ++ base.reverse)
        = '/' :: (org.reverse ++ ('-' :: ('o' :: ("/sgoLSWA/".toList ++ base.reverse)))) := by
      simp [List.reverse_append]
    rw [hM]
    have hrun : (org.reverse ++ ('-' :: ('o' :: ("/sgoLSWA/".toList ++ base.reverse)))).takeWhile isOrgChar
        = org.reverse :=
      takeWhile_append_stop isOrgChar org.reverse '-' _
        (fun x hx => horg x (List.mem_reverse.mp hx)) (by decide)
    have hseg : orgSegRevCheck
        ('/' :: (org.reverse ++ ('-' :: ('o' :: ("/sgoLSWA/".toList ++ base.reverse))))) = true := by
      simp only [orgSegRevCheck, if_pos rfl]
      rw [hrun]
      rw [drop_append_of_length org.reverse _ org.reverse.length rfl]
      have hcat : ('-' :: ('o' :: ("/sgoLSWA/".toList ++ base.reverse)))
          = "-o/sgoLSWA/".toList ++ base.reverse := by rfl
      rw [hcat, isPre_self_append]
      simp only [if_true, List.length_reverse, Bool.and_true, Bool.and_eq_true,
        decide_eq_true_eq]
      exact ⟨h10, h32⟩
    rw [hseg]
    simp [hds]

theorem awsLogsOrgREMatch_pos (base org tail : List Char)
    (horg : ∀ c ∈ org, isOrgChar c = true) (h10 : 10 ≤ org.length)
    (h32 : org.length ≤ 32) (htail : tail = [] ∨ tail = ['/']) :
    awsLogsOrgREMatch (base ++ ("/AWSLogs/o-".toList ++ (org ++ tail))) = true := by
  have hstrip := stripRev_org_shape base org tail horg h10 htail
  have hsh : "-o/sgoLSWA/".toList ++ base.reverse
      = '-' :: ("o/sgoLSWA/".toList ++ base.reverse) := by rfl
  have hrun : (org.reverse ++ ("-o/sgoLSWA/".toList ++ base.reverse)).takeWhile isOrgChar
      = org.reverse := by
    rw [hsh]
    exact takeWhile_append_stop isOrgChar org.reverse '-' _
      (fun x hx => horg x (List.mem_reverse.mp hx)) (by decide)
  simp only [awsLogsOrgREMatch]
  rw [hstrip, hrun,
      drop_append_of_length org.reverse _ org.reverse.length rfl,
      isPre_self_append]
  simp only [List.length_reverse, Bool.and_true, Bool.or_true]
  simp [h10, h32]

theorem awsLogsREMatch_neg_org (base org tail : List Char)
    (horg : ∀ c ∈ org, isOrgChar c = true) (h10 : 10 ≤ org.length)
    (h32 : org.length ≤ 32) (htail : tail = [] ∨ tail = ['/']) :
    awsLogsREMatch (base ++ ("/AWSLogs/o-".toList ++ (org ++ tail))) = false := by
  have hstrip := stripRev_org_shape base org tail horg h10 htail
  have hsh : "-o/sgoLSWA/".toList ++ base.reverse
      = '-' :: ("o/sgoLSWA/".toList ++ base.reverse) := by rfl
  simp only [awsLogsREMatch]
  rw [hstrip]
  by_cases hlen : org.length < 12
  · -- the 12-character digit window would have to contain the '-'
    have h12 : (12 : Nat) = org.reverse.length + (12 - org.length) := by
      simp only [List.length_reverse]; omega
    have hk : 12 - org.length = (11 - org.length) + 1 := by omega
    have htake : (org.reverse ++ ("-o/sgoLSWA/".toList ++ base.reverse)).take 12
        = org.reverse ++ ('-' :: (("o/sgoLSWA/".toList ++ base.reverse).take (11 - org.length))) := by
      rw [hsh, h12, List.take_append, hk, List.take_succ_cons]
    have hfalse : ((org.reverse ++ ("-o/sgoLSWA/".toList ++ base.reverse)).take 12).all isDigitC
        = false := by
      rw [htake, Bool.eq_false_iff]
      intro hall
      rw [List.all_eq_true] at hall
      exact absurd (hall '-' (by simp)) (by decide)
    rw [hfalse]
    simp
  · -- twelve digits could only come from inside the org id; what follows
    -- them can never be '/'
    push_neg at hlen
    have hsplit : org.reverse ++ ("-o/sgoLSWA/".toList ++ base.reverse)
        = org.reverse.take 12
            ++ (org.reverse.drop 12 ++ ("-o/sgoLSWA/".toList ++ base.reverse)) := by
      conv_rhs => rw [← List.append_assoc, List.take_append_drop]
    have hlen12 : (org.reverse.take 12).length = 12 := by
      simp only [List.length_take, List.length_reverse]; omega
    have hdrop : (org.reverse ++ ("-o/sgoLSWA/".toList ++ base.reverse)).drop 12
        = org.reverse.drop 12 ++ ("-o/sgoLSWA/".toList ++ base.reverse) := by
      rw [hsplit]
      exact drop_append_of_length _ _ 12 hlen12
    rw [hdrop]
    have hslash : ("/sgoLSWA/".toList) = '/' :: ("sgoLSWA/".toList) := by rfl
    by_cases heq : org.length = 12
    · have hnil : org.reverse.drop 12 = [] := by
        have : (org.reverse.drop 12).length = 0 := by
          simp only [List.length_drop, List.length_reverse]; omega
        exact List.eq_nil_of_length_eq_zero this
      rw [hnil, List.nil_append, hsh, hslash]
      rw [isPre_cons_ne '/' '-' _ _ (by decide),
          orgSegRevCheck_cons_ne '-' _ (by decide)]
      simp
    · -- strictly more than twelve org characters remain before the "-o"
      have hpos : 0 < (org.reverse.drop 12).length := by
        simp only [List.length_drop, List.length_reverse]; omega
      cases hdd : org.reverse.drop 12 with
      | nil => rw [hdd] at hpos; simp at hpos
      | cons e w =>
        have hem : e ∈ org := by
          have h1 : e ∈ org.reverse.drop 12 := by rw [hdd]; simp
          exact List.mem_reverse.mp (List.drop_subset 12 org.reverse h1)
        have he : isOrgChar e = true := horg e hem
        rw [List.cons_append, hslash]
        rw [isPre_cons_ne '/' e _ _ (fun hc => isOrgChar_ne_slash he hc.symm),
            orgSegRevCheck_cons_ne e _ (isOrgChar_ne_slash he)]
        simp

theorem splitComma_noComma (p : List Char) (h : ∀ c ∈ p, ¬ c = ',') :
    splitComma p = [p] := by
  induction p with
  | nil => rfl
  | cons c q ih =>
    have hc : ¬ c = ',' := h c (by simp)
    simp only [splitComma, if_neg hc, ih (fun x hx => h x (by simp [hx]))]

theorem splitComma_append (p rest : List Char) (h : ∀ c ∈ p, ¬ c = ',') :
    splitComma (p ++ ',' :: rest) = p :: splitComma rest := by
  induction p with
  | nil => simp [splitComma]
  | cons c q ih =>
    have hc : ¬ c = ',' := h c (by simp)
    have hq : splitComma (q.append (',' :: rest)) = q :: splitComma rest :=
      ih (fun x hx => h x (by simp [hx]))
    simp only [List.cons_append, splitComma, if_neg hc, hq]

theorem splitComma_joinComma (parts : List (List Char)) (hne : parts ≠ [])
    (h : ∀ p ∈ parts, ∀ c ∈ p, ¬ c = ',') :
    splitComma (joinComma parts) = parts := by
  induction parts with
  | nil => exact absurd rfl hne
  | cons p rest ih =>
    cases rest with
    | nil => simpa [joinComma] using splitComma_noComma p (h p (by simp))
    | cons q rest2 =>
      simp only [joinComma]
      rw [splitComma_append p _ (h p (by simp))]
      rw [ih (by simp) (fun r hr => h r (by simp [hr]))]

theorem joinComma_ne_nil (p : List Char) (rest : List (List Char)) (hp : p ≠ []) :
    joinComma (p :: rest) ≠ [] := by
  cases rest with
  | nil => simpa [joinComma] using hp
  | cons q r =>
    intro h
    have hl := congrArg List.length h
    simp only [joinComma, List.length_append, List.length_cons, List.length_nil] at hl
    omega

theorem dropWhile_replicate_append {α : Type} (p : α → Bool) (c : α) (hc : p c = true) :
    ∀ (n : Nat) (l : List α), (List.replicate n c ++ l).dropWhile p = l.dropWhile p := by
  intro n
  induction n with
  | zero => intro l; simp
  | succ n ih => intro l; simp [List.replicate_succ, List.dropWhile_cons, hc, ih]

theorem dropWhile_eq_self_of_head {α : Type} (p : α → Bool) (l : List α)
    (h : ∀ x ∈ l.take 1, p x = false) : l.dropWhile p = l := by
  cases l with
  | nil => rfl
  | cons a t => simp [List.dropWhile_cons, h a (by simp)]

theorem trimSpaceL_pad (a : List Char) (n m : Nat)
    (hne : a ≠ []) (hsp : ∀ c ∈ a, ¬ c = ' ') :
    trimSpaceL (List.replicate n ' ' ++ (a ++ List.replicate m ' ')) = a := by
  unfold trimSpaceL
  rw [dropWhile_replicate_append _ ' ' (by decide) n]
  cases a with
  | nil => exact absurd rfl hne
  | cons d q =>
    have hd : ¬ d = ' ' := hsp d (by simp)
    rw [List.cons_append, List.dropWhile_cons]
    simp only [decide_eq_true_eq, if_neg hd]
    have hrev : (d :: (q ++ List.replicate m ' ')).reverse
        = List.replicate m ' ' ++ (q.reverse ++ [d]) := by
      simp [List.reverse_cons, List.reverse_append]
    rw [hrev, dropWhile_replicate_append _ ' ' (by decide) m]
    have hhead : ∀ x ∈ (q.reverse ++ [d]).take 1,
        (fun c => decide (c = ' ')) x = false := by
      intro x hx
      have hxm : x ∈ q.reverse ++ [d] := List.take_subset 1 _ hx
      have hxa : x ∈ d :: q := by
        rcases List.mem_append.mp hxm with h1 | h1
        · exact List.mem_cons_of_mem d (List.mem_reverse.mp h1)
        · simp only [List.mem_singleton] at h1
          simp [h1]
      simpa using hsp x hxa
    rw [dropWhile_eq_self_of_head _ _ hhead]
    simp

/-- C6: the S3 prefix classification of `openS3`.
    (a) A prefix ending in `/AWSLogs/<12-digit-account>` — optionally
    under an `o-<org-id>` segment, optionally with a trailing slash —
    yields exactly one listing prefix: the prefix itself plus
    `/CloudTrail/`.
    (b) An organization prefix ending in `/AWSLogs/o-<org-id>` combined
    with a comma-separated, whitespace-trimmed account allow-list yields
    exactly one listing prefix per listed account, of the form
    `<prefix>/<account>/CloudTrail/`, in list order. -/
theorem C6_pfx_classification :
    (∀ base mid ds tail acctList discovered,
      ds.length = 12 → (∀ c ∈ ds, isDigitC c = true) →
      (mid = [] ∨ ∃ org, mid = 'o' :: ('-' :: (org ++ ['/']))
          ∧ (∀ c ∈ org, isOrgChar c = true) ∧ 10 ≤ org.length ∧ org.length ≤ 32) →
      (tail = [] ∨ tail = ['/']) →
      buildIntervalPfxList (base ++ ("/AWSLogs/".toList ++ (mid ++ (ds ++ tail))))
          acctList discovered
        = some [addTrailingSlash (base ++ ("/AWSLogs/".toList ++ (mid ++ (ds ++ tail))))
            ++ "CloudTrail/".toList])
    ∧ (∀ base org tail discovered (pads : List (Nat × List Char × Nat)),
      (∀ c ∈ org, isOrgChar c = true) → 10 ≤ org.length → org.length ≤ 32 →
      (tail = [] ∨ tail = ['/']) →
      pads ≠ [] →
      (∀ x ∈ pads, x.2.1.length = 12 ∧ ∀ c ∈ x.2.1, isDigitC c = true) →
      buildIntervalPfxList (base ++ ("/AWSLogs/o-".toList ++ (org ++ tail)))
          (joinComma (pads.map
            (fun x => List.replicate x.1 ' ' ++ (x.2.1 ++ List.replicate x.2.2 ' '))))
          discovered
        = some (pads.map (fun x =>
            addTrailingSlash (base ++ ("/AWSLogs/o-".toList ++ (org ++ tail)))
              ++ (x.2.1 ++ "/CloudTrail/".toList)))) := by
  constructor
  · intro base mid ds tail acctList discovered hds hdig hmid htail
    simp only [buildIntervalPfxList]
    rw [awsLogsREMatch_pos base mid ds tail hds hdig hmid htail]
    simp
  · intro base org tail discovered pads horg h10 h32 htail hpne hpads
    cases pads with
    | nil => exact absurd rfl hpne
    | cons x xs =>
      simp only [buildIntervalPfxList, List.map_cons]
      rw [awsLogsREMatch_neg_org base org tail horg h10 h32 htail,
          awsLogsOrgREMatch_pos base org tail horg h10 h32 htail]
      have hx12 := (hpads x (by simp)).1
      have hxd := (hpads x (by simp)).2
      have hhead_ne : List.replicate x.1 ' ' ++ (x.2.1 ++ List.replicate x.2.2 ' ') ≠ [] := by
        intro h
        have hl := congrArg List.length h
        simp only [List.length_append, List.length_replicate, List.length_nil] at hl
        omega
      have hne : joinComma
          ((List.replicate x.1 ' ' ++ (x.2.1 ++ List.replicate x.2.2 ' ')) ::
            xs.map (fun x => List.replicate x.1 ' ' ++ (x.2.1 ++ List.replicate x.2.2 ' ')))
          ≠ [] := joinComma_ne_nil _ _ hhead_ne
      have hnc : ∀ p ∈ (List.replicate x.1 ' ' ++ (x.2.1 ++ List.replicate x.2.2 ' ')) ::
            xs.map (fun x => List.replicate x.1 ' ' ++ (x.2.1 ++ List.replicate x.2.2 ' ')),
          ∀ c ∈ p, ¬ c = ',' := by
        intro p hp c hc
        have hp' : ∃ y, (y = x ∨ y ∈ xs)
            ∧ p = List.replicate y.1 ' ' ++ (y.2.1 ++ List.replicate y.2.2 ' ') := by
          rcases List.mem_cons.mp hp with h1 | h1
          · exact ⟨x, Or.inl rfl, h1⟩
          · obtain ⟨y, hy, hye⟩ := List.mem_map.mp h1
            exact ⟨y, Or.inr hy, hye.symm⟩
        obtain ⟨y, hy, hpe⟩ := hp'
        have hyd : ∀ c ∈ y.2.1, isDigitC c = true := by
          rcases hy with h1 | h1
          · rw [h1]; exact hxd
          · exact (hpads y (by simp [h1])).2
        rw [hpe] at hc
        rcases List.mem_append.mp hc with h1 | h1
        · rw [List.eq_of_mem_replicate h1]; decide
        · rcases List.mem_append.mp h1 with h2 | h2
          · exact isDigitC_ne_comma (hyd c h2)
          · rw [List.eq_of_mem_replicate h2]; decide
      rw [if_pos hne]
      rw [splitComma_joinComma _ (by simp) hnc]
      have htrimmed : ∀ (y : Nat × List Char × Nat), y = x ∨ y ∈ xs →
          trimSpaceL (List.replicate y.1 ' ' ++ (y.2.1 ++ List.replicate y.2.2 ' '))
            = y.2.1 := by
        intro y hy
        have hy12 : y.2.1.length = 12 := by
          rcases hy with h1 | h1
          · rw [h1]; exact hx12
          · exact (hpads y (by simp [h1])).1
        have hyd : ∀ c ∈ y.2.1, isDigitC c = true := by
          rcases hy with h1 | h1
          · rw [h1]; exact hxd
          · exact (hpads y (by simp [h1])).2
        apply trimSpaceL_pad
        · intro h; rw [h] at hy12; simp at hy12
        · intro c hc; exact isDigitC_ne_space (hyd c hc)
      rw [List.map_cons, htrimmed x (Or.inl rfl)]
      have hmapmap : (xs.map (fun x => List.replicate x.1 ' '
            ++ (x.2.1 ++ List.replicate x.2.2 ' '))).map trimSpaceL
          = xs.map (fun x => x.2.1) := by
        rw [List.map_map]
        apply List.map_congr_left
        intro y hy
        exact htrimmed y (Or.inr hy)
      rw [hmapmap]
      simp [List.map_map, Function.comp]

/-- Witness for C6: the single-account prefix `logs/AWSLogs/123456789012`
    yields exactly `logs/AWSLogs/123456789012/CloudTrail/`, and the
    organization prefix `bucketpfx/AWSLogs/o-exampleorgid` with
    allow-list "111111111111, 222222222222" yields exactly the two
    per-account listing prefixes. -/
theorem C6_pfx_classification_witness :
    buildIntervalPfxList
        ("logs".toList ++ ("/AWSLogs/".toList ++ ([] ++ ("123456789012".toList ++ []))))
        [] []
      = some ["logs/AWSLogs/123456789012/CloudTrail/".toList]
    ∧ buildIntervalPfxList
        ("bucketpfx".toList ++ ("/AWSLogs/o-".toList ++ ("exampleorgid".toList ++ [])))
        ("111111111111, 222222222222".toList) []
      = some ["bucketpfx/AWSLogs/o-exampleorgid/111111111111/CloudTrail/".toList,
              "bucketpfx/AWSLogs/o-exampleorgid/222222222222/CloudTrail/".toList] := by
  constructor
  · exact (C6_pfx_classification.1 ("logs".toList) [] ("123456789012".toList) [] [] []
      (by decide) (by decide) (Or.inl rfl) (Or.inl rfl)).trans (by decide)
  · have h := C6_pfx_classification.2 ("bucketpfx".toList) ("exampleorgid".toList) [] []
      [(0, "111111111111".toList, 0), (1, "222222222222".toList, 0)]
      (by decide) (by decide) (by decide) (Or.inl rfl) (by decide) (by decide)
    have hacct : joinComma
        ([(0, "111111111111".toList, 0), (1, "222222222222".toList, 0)].map
          (fun x => List.replicate x.1 ' ' ++ (x.2.1 ++ List.replicate x.2.2 ' ')))
        = "111111111111, 222222222222".toList := by decide
    rw [← hacct]
    exact h.trans (by decide)

/- ### Lemmas about the pull state machine -/

theorem popRecord2_fst_ne_eof (env : PullEnv) (evtData : List Nat) (cr : RecordView)
    (st : InstanceState) : (popRecord2 env evtData cr st).1 ≠ SdkResult.eof := by
  unfold popRecord2
  (repeat' split) <;> simp

theorem popRecord_fst_ne_eof (env : PullEnv) (st : InstanceState) :
    (popRecord env st).1 ≠ SdkResult.eof := by
  unfold popRecord
  split
  · split
    · simp
    · apply popRecord2_fst_ne_eof
  · simp

theorem popRecord2_curFileNum (env : PullEnv) (evtData : List Nat) (cr : RecordView)
    (st : InstanceState) : ((popRecord2 env evtData cr st).2).curFileNum = st.curFileNum := by
  unfold popRecord2
  (repeat' split) <;> rfl

theorem popRecord_curFileNum (env : PullEnv) (st : InstanceState) :
    ((popRecord env st).2).curFileNum = st.curFileNum := by
  unfold popRecord
  split
  · split
    · rfl
    · rw [popRecord2_curFileNum]
  · rfl

theorem foldl_sqs_curFileNum (recs : List (List Char × List Char)) :
    ∀ s : InstanceState,
    ((recs.foldl (fun s bk =>
        { s with bucket := bk.1, files := s.files ++ [⟨bk.2, isCompressedName bk.2⟩] })
      s).curFileNum) = s.curFileNum := by
  induction recs with
  | nil => intro s; rfl
  | cons r rest ih => intro s; rw [List.foldl_cons, ih]

theorem getMoreSQSFiles_ok_curFileNum (cfg : PluginConfig) (env : PullEnv)
    (st st₁ : InstanceState) (h : getMoreSQSFiles cfg env st = Except.ok st₁) :
    st₁.curFileNum = st.curFileNum := by
  unfold getMoreSQSFiles at h
  (repeat' split at h) <;>
    (try simp at h) <;>
    (try subst h) <;>
    (try rfl) <;>
    (try exact foldl_sqs_curFileNum _ st)

theorem readNextFileS3_curFileNum (cfg : PluginConfig) (env : PullEnv)
    (st : InstanceState) :
    ((readNextFileS3 cfg env st).2).curFileNum = st.curFileNum := by
  unfold readNextFileS3
  (repeat' split) <;> rfl

theorem readFileStep_curFileNum (cfg : PluginConfig) (env : PullEnv) (file : fileInfo)
    (st : InstanceState) :
    ((readFileStep cfg env file st).2).curFileNum = st.curFileNum := by
  unfold readFileStep
  split
  · apply readNextFileS3_curFileNum
  · apply readNextFileS3_curFileNum
  · split <;> rfl

theorem openNextFile_error (cfg : PluginConfig) (env : PullEnv) (st : InstanceState)
    (out : SdkResult × InstanceState) (h : openNextFile cfg env st = Except.error out) :
    out.1 ≠ SdkResult.eof ∧ out.2.curFileNum = st.curFileNum + 1 := by
  have hcur := readFileStep_curFileNum cfg env (st.files.getD st.curFileNum ⟨[], false⟩)
    { st with curFileNum := st.curFileNum + 1 }
  unfold openNextFile at h
  split at h
  · next e st₃ heq =>
    rw [heq] at hcur
    injection h with h'
    rw [← h']
    exact ⟨by simp, hcur⟩
  · next tmpStr st₃ heq =>
    rw [heq] at hcur
    split at h
    · injection h with h'
      rw [← h']
      exact ⟨by simp, hcur⟩
    · cases h

theorem openNextFile_ok (cfg : PluginConfig) (env : PullEnv) (st : InstanceState)
    (st₂ : InstanceState) (h : openNextFile cfg env st = Except.ok st₂) :
    st₂.curFileNum = st.curFileNum + 1 := by
  have hcur := readFileStep_curFileNum cfg env (st.files.getD st.curFileNum ⟨[], false⟩)
    { st with curFileNum := st.curFileNum + 1 }
  unfold openNextFile at h
  split at h
  · cases h
  · next tmpStr st₃ heq =>
    rw [heq] at hcur
    split at h
    · cases h
    · injection h with h'
      rw [← h']
      exact hcur

theorem refill_error_curFileNum (cfg : PluginConfig) (env : PullEnv)
    (st : InstanceState) (out : SdkResult × InstanceState)
    (h : refill cfg env st = Except.error out) :
    st.curFileNum ≤ out.2.curFileNum := by
  unfold refill at h
  split at h
  · split at h
    · split at h
      · injection h with h'
        rw [← h']
      · next st₁ heq =>
        have h1 := getMoreSQSFiles_ok_curFileNum cfg env st st₁ heq
        split at h
        · injection h with h'
          rw [← h']
          exact le_of_eq h1.symm
        · have h2 := (openNextFile_error cfg env st₁ out h).2
          omega
    · injection h with h'
      rw [← h']
  · have h2 := (openNextFile_error cfg env st out h).2
    omega

theorem refill_ok_curFileNum (cfg : PluginConfig) (env : PullEnv)
    (st : InstanceState) (st₂ : InstanceState)
    (h : refill cfg env st = Except.ok st₂) :
    st.curFileNum ≤ st₂.curFileNum := by
  unfold refill at h
  split at h
  · split at h
    · split at h
      · cases h
      · next st₁ heq =>
        have h1 := getMoreSQSFiles_ok_curFileNum cfg env st st₁ heq
        split at h
        · cases h
        · have h2 := openNextFile_ok cfg env st₁ st₂ h
          omega
    · cases h
  · have h2 := openNextFile_ok cfg env st st₂ h
    omega

theorem nextEvent_curFileNum_mono (cfg : PluginConfig) (env : PullEnv)
    (st : InstanceState) :
    st.curFileNum ≤ ((nextEvent cfg env st).2).curFileNum := by
  unfold nextEvent
  split
  · cases href : refill cfg env st with
    | error out =>
      exact refill_error_curFileNum cfg env st out href
    | ok st₂ =>
      have h1 := refill_ok_curFileNum cfg env st st₂ href
      have h2 := popRecord_curFileNum env st₂
      show st.curFileNum ≤ ((popRecord env st₂).2).curFileNum
      omega
  · have h2 := popRecord_curFileNum env st
    omega

/-- C3: for a session whose origin is local or direct-S3 (non-queue),
    once a pull returns end-of-stream the session state is unchanged and
    every subsequent pull (under any configuration and environment) also
    returns end-of-stream with the state unchanged. -/
theorem C3_eof_terminal (cfg : PluginConfig) (env : PullEnv) (st st₂ : InstanceState)
    (hm : st.openMode = OpenMode.fileMode ∨ st.openMode = OpenMode.s3Mode)
    (h : nextEvent cfg env st = (SdkResult.eof, st₂)) :
    st₂ = st ∧ ∀ (cfg' : PluginConfig) (env' : PullEnv),
      nextEvent cfg' env' st = (SdkResult.eof, st) := by
  have hmode : ¬ st.openMode = OpenMode.sqsMode := by
    rcases hm with h1 | h1 <;> rw [h1] <;> simp
  have hcond : st.evtJSONListPos ≥ st.evtJSONStrings.length
      ∧ st.curFileNum ≥ st.files.length ∧ st₂ = st := by
    unfold nextEvent at h
    split at h
    · next hpos =>
      cases href : refill cfg env st with
      | error out =>
        rw [href] at h
        have hout : out = (SdkResult.eof, st₂) := h
        unfold refill at href
        split at href
        · next hfl =>
          injection href with h'
          refine ⟨hpos, hfl, ?_⟩
          rw [hout] at h'
          exact (congrArg Prod.snd h').symm
        · next hfl =>
          exfalso
          have h1 := (openNextFile_error cfg env st out href).1
          exact h1 (by rw [hout])
      | ok st₃ =>
        rw [href] at h
        exact absurd (congrArg Prod.fst h) (popRecord_fst_ne_eof env st₃)
    · next hpos =>
      exact absurd (congrArg Prod.fst h) (popRecord_fst_ne_eof env st)
  refine ⟨hcond.2.2, fun cfg' env' => ?_⟩
  unfold nextEvent refill
  rw [if_pos hcond.1, if_pos hcond.2.1, if_neg hmode]

/-- Witness for C3: a local-mode session with no files returns
    end-of-stream, and by the theorem every subsequent pull on the
    unchanged state returns end-of-stream again. -/
theorem C3_eof_terminal_witness :
    nextEvent ⟨1, false, false⟩
      ⟨Except.ok none, Except.ok (), fun _ => Except.error 0, fun _ => Except.error 0,
       fun _ => none, fun _ => none, fun _ => none, fun _ => Except.error 0⟩
      ⟨OpenMode.fileMode, [], 0, [], 0, [], 0, 0, 0, []⟩
      = (SdkResult.eof, ⟨OpenMode.fileMode, [], 0, [], 0, [], 0, 0, 0, []⟩) :=
  (C3_eof_terminal ⟨1, false, false⟩
      ⟨Except.ok none, Except.ok (), fun _ => Except.error 0, fun _ => Except.error 0,
       fun _ => none, fun _ => none, fun _ => none, fun _ => Except.error 0⟩
      ⟨OpenMode.fileMode, [], 0, [], 0, [], 0, 0, 0, []⟩
      ⟨OpenMode.fileMode, [], 0, [], 0, [], 0, 0, 0, []⟩
      (Or.inl rfl) rfl).2
    ⟨1, false, false⟩
    ⟨Except.ok none, Except.ok (), fun _ => Except.error 0, fun _ => Except.error 0,
     fun _ => none, fun _ => none, fun _ => none, fun _ => Except.error 0⟩

/-- C4: for a queue-origin session whose buffered records and known
    files are exhausted, any number of consecutive pulls whose polls
    return no message all yield the retry-later outcome (never
    end-of-stream) and leave the session state unchanged. -/
theorem C4_empty_poll_timeout (cfg : PluginConfig) (st : InstanceState)
    (hm : st.openMode = OpenMode.sqsMode)
    (hpos : st.evtJSONListPos ≥ st.evtJSONStrings.length)
    (hfiles : st.curFileNum ≥ st.files.length) :
    ∀ envs : List PullEnv, (∀ e ∈ envs, e.sqsReceive = Except.ok none) →
      pulls cfg envs st = (envs.map (fun _ => SdkResult.timeout), st) := by
  have hstep : ∀ env : PullEnv, env.sqsReceive = Except.ok none →
      nextEvent cfg env st = (SdkResult.timeout, st) := by
    intro env he
    unfold nextEvent refill getMoreSQSFiles
    rw [if_pos hpos, if_pos hfiles, if_pos hm, he]
    simp [hfiles]
  intro envs
  induction envs with
  | nil => intro _; rfl
  | cons e rest ih =>
    intro h
    have h1 := hstep e (h e (by simp))
    simp only [pulls, h1, ih (fun x hx => h x (by simp [hx])), List.map_cons]

/-- Witness for C4: two consecutive empty polls on an exhausted queue
    session both yield the retry-later outcome and leave the state
    unchanged. -/
theorem C4_empty_poll_timeout_witness :
    pulls ⟨1, false, false⟩
      [⟨Except.ok none, Except.ok (), fun _ => Except.error 0, fun _ => Except.error 0,
        fun _ => none, fun _ => none, fun _ => none, fun _ => Except.error 0⟩,
       ⟨Except.ok none, Except.ok (), fun _ => Except.error 0, fun _ => Except.error 0,
        fun _ => none, fun _ => none, fun _ => none, fun _ => Except.error 0⟩]
      ⟨OpenMode.sqsMode, [], 0, [], 0, [], 0, 0, 0, []⟩
      = ([SdkResult.timeout, SdkResult.timeout],
         ⟨OpenMode.sqsMode, [], 0, [], 0, [], 0, 0, 0, []⟩) := by
  have h := C4_empty_poll_timeout ⟨1, false, false⟩
      ⟨OpenMode.sqsMode, [], 0, [], 0, [], 0, 0, 0, []⟩
      rfl (by decide) (by decide)
      [⟨Except.ok none, Except.ok (), fun _ => Except.error 0, fun _ => Except.error 0,
        fun _ => none, fun _ => none, fun _ => none, fun _ => Except.error 0⟩,
       ⟨Except.ok none, Except.ok (), fun _ => Except.error 0, fun _ => Except.error 0,
        fun _ => none, fun _ => none, fun _ => none, fun _ => Except.error 0⟩]
      (by intro e he; fin_cases he <;> rfl)
  simpa using h

/-- C9: a popped record that parses and carries a valid eventTime is
    dropped with the retry-later outcome (the list position already
    advanced) when its eventType is missing or not a string — and
    likewise when the eventType equals the insight sentinel
    "AwsCloudTrailInsight". -/
theorem C9_missing_eventType_dropped (cfg : PluginConfig) (env : PullEnv)
    (st : InstanceState) (cr : RecordView) (tv : List Char) (t1 : Nat)
    (hpos : st.evtJSONListPos < st.evtJSONStrings.length)
    (hparse : env.jsonParse (st.evtJSONStrings.getD st.evtJSONListPos []) = some cr)
    (htime : cr.eventTime = some tv)
    (ht1 : env.parseRFC3339 tv = some t1) :
    (cr.eventType = none →
      nextEvent cfg env st
        = (SdkResult.timeout, { st with evtJSONListPos := st.evtJSONListPos + 1 }))
    ∧ (cr.eventType = some ("AwsCloudTrailInsight".toList) →
      nextEvent cfg env st
        = (SdkResult.timeout, { st with evtJSONListPos := st.evtJSONListPos + 1 })) := by
  have hlen : ¬ (st.evtJSONListPos ≥ st.evtJSONStrings.length) := by omega
  have hne : st.evtJSONStrings.length ≠ 0 := by omega
  constructor <;> intro hty <;>
    (simp only [nextEvent, refill, popRecord, popRecord2, if_neg hlen, if_pos hne,
       hparse, htime, ht1, hty]
     try rfl)

/-- Witness for C9: a record with a valid eventTime and a missing
    eventType is dropped with the retry-later outcome, and so is an
    insight record. -/
theorem C9_missing_eventType_dropped_witness :
    nextEvent ⟨1, false, false⟩
      ⟨Except.ok none, Except.ok (), fun _ => Except.error 0, fun _ => Except.error 0,
       fun _ => none, fun _ => some ⟨some ("2021-08-03T12:00:00Z".toList), none⟩,
       fun _ => some 5, fun _ => Except.error 0⟩
      ⟨OpenMode.fileMode, [], 0, [[48]], 0, [], 0, 0, 0, []⟩
      = (SdkResult.timeout, ⟨OpenMode.fileMode, [], 0, [[48]], 1, [], 0, 0, 0, []⟩) := by
  have h := (C9_missing_eventType_dropped ⟨1, false, false⟩
      ⟨Except.ok none, Except.ok (), fun _ => Except.error 0, fun _ => Except.error 0,
       fun _ => none, fun _ => some ⟨some ("2021-08-03T12:00:00Z".toList), none⟩,
       fun _ => some 5, fun _ => Except.error 0⟩
      ⟨OpenMode.fileMode, [], 0, [[48]], 0, [], 0, 0, 0, []⟩
      ⟨some ("2021-08-03T12:00:00Z".toList), none⟩
      ("2021-08-03T12:00:00Z".toList) 5
      (by decide) rfl rfl rfl).1 rfl
  simpa using h

/-- C8: a pull that opens a compressed file whose bytes are a corrupt
    gzip stream returns the retry-later outcome (neither a fatal error
    nor end-of-stream), with the file cursor already advanced past the
    bad file; and since the cursor never decreases across pulls, that
    file index is never opened again. -/
theorem C8_corrupt_gzip_retry (cfg : PluginConfig) (env : PullEnv)
    (st st₃ : InstanceState) (tmpStr : List Nat)
    (hpos : st.evtJSONListPos ≥ st.evtJSONStrings.length)
    (hfile : st.curFileNum < st.files.length)
    (hread : readFileStep cfg env (st.files.getD st.curFileNum ⟨[], false⟩)
        { st with curFileNum := st.curFileNum + 1 } = (Except.ok tmpStr, st₃))
    (hcomp : (st.files.getD st.curFileNum ⟨[], false⟩).isCompressed = true)
    (hgz : env.gunzip tmpStr = none) :
    nextEvent cfg env st = (SdkResult.timeout, st₃)
    ∧ st₃.curFileNum = st.curFileNum + 1
    ∧ (∀ (cfg' : PluginConfig) (env' : PullEnv) (s : InstanceState),
        st.curFileNum + 1 ≤ s.curFileNum →
        st.curFileNum + 1 ≤ ((nextEvent cfg' env' s).2).curFileNum) := by
  refine ⟨?_, ?_, ?_⟩
  · have hnlt : ¬ st.curFileNum ≥ st.files.length := by omega
    simp only [nextEvent, refill, openNextFile, if_pos hpos, if_neg hnlt,
      hread, hcomp, hgz]
    try rfl
  · have h2 := readFileStep_curFileNum cfg env
      (st.files.getD st.curFileNum ⟨[], false⟩) { st with curFileNum := st.curFileNum + 1 }
    rw [hread] at h2
    exact h2
  · intro cfg' env' s hs
    exact le_trans hs (nextEvent_curFileNum_mono cfg' env' s)

/-- Witness for C8: a one-file local session whose compressed file
    inflates to nothing (corrupt stream) yields retry-later with the
    cursor advanced past the file. -/
theorem C8_corrupt_gzip_retry_witness :
    nextEvent ⟨1, false, false⟩
      ⟨Except.ok none, Except.ok (), fun _ => Except.error 0, fun _ => Except.ok [9],
       fun _ => none, fun _ => none, fun _ => none, fun _ => Except.error 0⟩
      ⟨OpenMode.fileMode, [⟨"f.json.gz".toList, true⟩], 0, [], 0, [], 0, 0, 0, []⟩
      = (SdkResult.timeout,
         ⟨OpenMode.fileMode, [⟨"f.json.gz".toList, true⟩], 1, [], 0, [], 0, 0, 0, []⟩) := by
  have h := (C8_corrupt_gzip_retry ⟨1, false, false⟩
      ⟨Except.ok none, Except.ok (), fun _ => Except.error 0, fun _ => Except.ok [9],
       fun _ => none, fun _ => none, fun _ => none, fun _ => Except.error 0⟩
      ⟨OpenMode.fileMode, [⟨"f.json.gz".toList, true⟩], 0, [], 0, [], 0, 0, 0, []⟩
      ⟨OpenMode.fileMode, [⟨"f.json.gz".toList, true⟩], 1, [], 0, [], 0, 0, 0, []⟩
      [9] (by decide) (by decide) rfl (by decide) rfl).1
  exact h

/-- Counterexample to C2 as stated: a queue-origin pull whose received
    message has a body that fails JSON unmarshalling returns a fatal
    error from `nextEvent` — not the retry-later outcome the claim
    requires for malformed queue message content. -/
theorem C2_malformed_queue_payload_fatal :
    nextEvent ⟨1, false, false⟩
      ⟨Except.ok (some ⟨none⟩), Except.ok (), fun _ => Except.error 0,
       fun _ => Except.error 0, fun _ => none, fun _ => none, fun _ => none,
       fun _ => Except.error 0⟩
      ⟨OpenMode.sqsMode, [], 0, [], 0, [], 0, 0, 0, []⟩
      = (SdkResult.err Err.sqsBodyUnmarshal,
         ⟨OpenMode.sqsMode, [], 0, [], 0, [], 0, 0, 0, []⟩)
    ∧ SdkResult.err Err.sqsBodyUnmarshal ≠ SdkResult.timeout
    ∧ SdkResult.err Err.sqsBodyUnmarshal ≠ SdkResult.eof := by
  refine ⟨rfl, by decide, by decide⟩

/-- C2 (amended): malformed file payloads never produce a fatal error
    from a pull — a corrupt compressed stream, a record that fails JSON
    parsing, and a record with an unparsable eventTime each yield the
    retry-later outcome — but a queue message whose body fails JSON
    unmarshalling propagates as a fatal error. -/
theorem C2_fatal_scope :
    (∀ (cfg : PluginConfig) (env : PullEnv) (st st₃ : InstanceState) (tmpStr : List Nat),
      st.evtJSONListPos ≥ st.evtJSONStrings.length →
      st.curFileNum < st.files.length →
      readFileStep cfg env (st.files.getD st.curFileNum ⟨[], false⟩)
          { st with curFileNum := st.curFileNum + 1 } = (Except.ok tmpStr, st₃) →
      (st.files.getD st.curFileNum ⟨[], false⟩).isCompressed = true →
      env.gunzip tmpStr = none →
      (nextEvent cfg env st).1 = SdkResult.timeout)
    ∧ (∀ (cfg : PluginConfig) (env : PullEnv) (st : InstanceState),
      st.evtJSONListPos < st.evtJSONStrings.length →
      env.jsonParse (st.evtJSONStrings.getD st.evtJSONListPos []) = none →
      nextEvent cfg env st
        = (SdkResult.timeout, { st with evtJSONListPos := st.evtJSONListPos + 1 }))
    ∧ (∀ (cfg : PluginConfig) (env : PullEnv) (st : InstanceState)
        (cr : RecordView) (tv : List Char),
      st.evtJSONListPos < st.evtJSONStrings.length →
      env.jsonParse (st.evtJSONStrings.getD st.evtJSONListPos []) = some cr →
      cr.eventTime = some tv →
      env.parseRFC3339 tv = none →
      nextEvent cfg env st
        = (SdkResult.timeout, { st with evtJSONListPos := st.evtJSONListPos + 1 }))
    ∧ (∀ (cfg : PluginConfig) (env : PullEnv) (st : InstanceState)
        (msg : SqsMessageEnv),
      st.openMode = OpenMode.sqsMode →
      st.evtJSONListPos ≥ st.evtJSONStrings.length →
      st.curFileNum ≥ st.files.length →
      env.sqsReceive = Except.ok (some msg) →
      cfg.sqsDelete = false →
      msg.bodyParse = none →
      nextEvent cfg env st = (SdkResult.err Err.sqsBodyUnmarshal, st)) := by
  refine ⟨?_, ?_, ?_, ?_⟩
  · intro cfg env st st₃ tmpStr hpos hfile hread hcomp hgz
    have hnlt : ¬ st.curFileNum ≥ st.files.length := by omega
    simp only [nextEvent, refill, openNextFile, if_pos hpos, if_neg hnlt,
      hread, hcomp, hgz]
    rfl
  · intro cfg env st hpos hparse
    have hlen : ¬ (st.evtJSONListPos ≥ st.evtJSONStrings.length) := by omega
    have hne : st.evtJSONStrings.length ≠ 0 := by omega
    simp only [nextEvent, popRecord, if_neg hlen, if_pos hne, hparse]
  · intro cfg env st cr tv hpos hparse htime hrfc
    have hlen : ¬ (st.evtJSONListPos ≥ st.evtJSONStrings.length) := by omega
    have hne : st.evtJSONStrings.length ≠ 0 := by omega
    simp only [nextEvent, popRecord, popRecord2, if_neg hlen, if_pos hne,
      hparse, htime, hrfc]
  · intro cfg env st msg hm hpos hfl hrecv hdel hbody
    simp only [nextEvent, refill, getMoreSQSFiles, if_pos hpos, if_pos hfl,
      if_pos hm, hrecv, hdel, hbody]
    try rfl

/-- Witness for the amended C2, at concrete sessions: a corrupt
    compressed local file, an unparsable record, a record with an
    unparsable eventTime, and a malformed queue message body. -/
theorem C2_fatal_scope_witness :
    (nextEvent ⟨1, false, false⟩
      ⟨Except.ok none, Except.ok (), fun _ => Except.error 0, fun _ => Except.ok [9],
       fun _ => none, fun _ => none, fun _ => none, fun _ => Except.error 0⟩
      ⟨OpenMode.fileMode, [⟨"f.json.gz".toList, true⟩], 0, [], 0, [], 0, 0, 0, []⟩).1
      = SdkResult.timeout
    ∧ nextEvent ⟨1, false, false⟩
      ⟨Except.ok none, Except.ok (), fun _ => Except.error 0, fun _ => Except.error 0,
       fun _ => none, fun _ => none, fun _ => none, fun _ => Except.error 0⟩
      ⟨OpenMode.fileMode, [], 0, [[48]], 0, [], 0, 0, 0, []⟩
      = (SdkResult.timeout, ⟨OpenMode.fileMode, [], 0, [[48]], 1, [], 0, 0, 0, []⟩)
    ∧ nextEvent ⟨1, false, false⟩
      ⟨Except.ok none, Except.ok (), fun _ => Except.error 0, fun _ => Except.error 0,
       fun _ => none, fun _ => some ⟨some ("bad-time".toList), some ("t".toList)⟩,
       fun _ => none, fun _ => Except.error 0⟩
      ⟨OpenMode.fileMode, [], 0, [[48]], 0, [], 0, 0, 0, []⟩
      = (SdkResult.timeout, ⟨OpenMode.fileMode, [], 0, [[48]], 1, [], 0, 0, 0, []⟩)
    ∧ nextEvent ⟨1, false, false⟩
      ⟨Except.ok (some ⟨none⟩), Except.ok (), fun _ => Except.error 0,
       fun _ => Except.error 0, fun _ => none, fun _ => none, fun _ => none,
       fun _ => Except.error 0⟩
      ⟨OpenMode.sqsMode, [], 0, [], 0, [], 0, 0, 0, []⟩
      = (SdkResult.err Err.sqsBodyUnmarshal,
         ⟨OpenMode.sqsMode, [], 0, [], 0, [], 0, 0, 0, []⟩) := by
  refine ⟨?_, ?_, ?_, ?_⟩
  · exact C2_fatal_scope.1 ⟨1, false, false⟩
      ⟨Except.ok none, Except.ok (), fun _ => Except.error 0, fun _ => Except.ok [9],
       fun _ => none, fun _ => none, fun _ => none, fun _ => Except.error 0⟩
      ⟨OpenMode.fileMode, [⟨"f.json.gz".toList, true⟩], 0, [], 0, [], 0, 0, 0, []⟩
      ⟨OpenMode.fileMode, [⟨"f.json.gz".toList, true⟩], 1, [], 0, [], 0, 0, 0, []⟩
      [9] (by decide) (by decide) rfl (by decide) rfl
  · have h := C2_fatal_scope.2.1 ⟨1, false, false⟩
      ⟨Except.ok none, Except.ok (), fun _ => Except.error 0, fun _ => Except.error 0,
       fun _ => none, fun _ => none, fun _ => none, fun _ => Except.error 0⟩
      ⟨OpenMode.fileMode, [], 0, [[48]], 0, [], 0, 0, 0, []⟩
      (by decide) rfl
    simpa using h
  · have h := C2_fatal_scope.2.2.1 ⟨1, false, false⟩
      ⟨Except.ok none, Except.ok (), fun _ => Except.error 0, fun _ => Except.error 0,
       fun _ => none, fun _ => some ⟨some ("bad-time".toList), some ("t".toList)⟩,
       fun _ => none, fun _ => Except.error 0⟩
      ⟨OpenMode.fileMode, [], 0, [[48]], 0, [], 0, 0, 0, []⟩
      ⟨some ("bad-time".toList), some ("t".toList)⟩ ("bad-time".toList)
      (by decide) rfl rfl rfl
    simpa using h
  · exact C2_fatal_scope.2.2.2 ⟨1, false, false⟩
      ⟨Except.ok (some ⟨none⟩), Except.ok (), fun _ => Except.error 0,
       fun _ => Except.error 0, fun _ => none, fun _ => none, fun _ => none,
       fun _ => Except.error 0⟩
      ⟨OpenMode.sqsMode, [], 0, [], 0, [], 0, 0, 0, []⟩
      ⟨none⟩ rfl (by decide) (by decide) rfl rfl rfl

theorem getD_set_eq {α : Type} (l : List α) (i : Nat) (v d : α) (h : i < l.length) :
    (l.set i v).getD i d = v := by
  induction l generalizing i with
  | nil => simp at h
  | cons a t ih =>
    cases i with
    | zero => rfl
    | succ i' =>
      show (a :: t.set i' v).getD (i' + 1) d = v
      rw [List.getD_cons_succ]
      exact ih i' (by simpa using h)

theorem getD_set_ne {α : Type} (l : List α) (i j : Nat) (v d : α) (h : ¬ j = i) :
    (l.set i v).getD j d = l.getD j d := by
  induction l generalizing i j with
  | nil => rfl
  | cons a t ih =>
    cases i with
    | zero =>
      cases j with
      | zero => exact absurd rfl h
      | succ j' => rfl
    | succ i' =>
      cases j with
      | zero => rfl
      | succ j' =>
        show (a :: t.set i' v).getD (j' + 1) d = (a :: t).getD (j' + 1) d
        rw [List.getD_cons_succ, List.getD_cons_succ]
        exact ih i' j' (fun he => h (by rw [he]))

theorem downloadBatch_ok (env : PullEnv) :
    ∀ (fs : List fileInfo) (j : Nat) (bufs : List (List Nat)) (bodies : Nat → List Nat),
    (∀ i, i < fs.length →
      env.s3Download ((fs.getD i ⟨[], false⟩).name) = Except.ok (bodies i)) →
    (downloadBatch env fs j bufs).2 = []
    ∧ ((downloadBatch env fs j bufs).1).length = bufs.length
    ∧ (∀ m, m < j → ((downloadBatch env fs j bufs).1).getD m [] = bufs.getD m [])
    ∧ (∀ i, i < fs.length → j + fs.length ≤ bufs.length →
        ((downloadBatch env fs j bufs).1).getD (j + i) [] = bodies i) := by
  intro fs
  induction fs with
  | nil =>
    intro j bufs bodies _
    exact ⟨rfl, rfl, fun m _ => rfl, fun i hi _ => absurd hi (by simp)⟩
  | cons f rest ih =>
    intro j bufs bodies h
    have h0 : env.s3Download f.name = Except.ok (bodies 0) := by
      have := h 0 (by simp)
      simpa using this
    obtain ⟨ht, hlen, hlow, hhigh⟩ := ih (j + 1) (bufs.set j (bodies 0))
      (fun i => bodies (i + 1))
      (fun i hi => by
        have := h (i + 1) (by simpa using Nat.succ_lt_succ hi)
        simpa using this)
    have hstep : downloadBatch env (f :: rest) j bufs
        = downloadBatch env rest (j + 1) (bufs.set j (bodies 0)) := by
      simp only [downloadBatch, h0]
    refine ⟨?_, ?_, ?_, ?_⟩
    · rw [hstep]; exact ht
    · rw [hstep, hlen, List.length_set]
    · intro m hm
      rw [hstep, hlow m (by omega)]
      exact getD_set_ne bufs j m (bodies 0) [] (by omega)
    · intro i hi hle
      rw [hstep]
      cases i with
      | zero =>
        have hj : j < bufs.length := by simp at hle; omega
        simp only [Nat.add_zero]
        rw [hlow j (by omega)]
        exact getD_set_eq bufs j (bodies 0) [] hj
      | succ i' =>
        have hi' : i' < rest.length := by simpa using Nat.lt_of_succ_lt_succ hi
        have hle' : (j + 1) + rest.length ≤ (bufs.set j (bodies 0)).length := by
          rw [List.length_set]; simp at hle; omega
        have := hhigh i' hi' hle'
        have harith : j + (i' + 1) = (j + 1) + i' := by omega
        rw [harith]
        exact this

/-- C7: an S3/queue fetch step with no buffered slot remaining
    (curBuf ≥ nFilledBufs) and at least one file not yet downloaded, in
    which every fetch of the wave succeeds, uses batch size
    min(S3DownloadConcurrency, files not yet downloaded), advances the
    files-consumed cursor by exactly that batch size, fills slots
    0..batch-1 with the bodies of files k, k+1, ..., returns the bytes
    of slot 0, and sets the in-batch read cursor to 1; pulls finding a
    buffered slot (curBuf < nFilledBufs) consume the slots sequentially
    without starting a new batch. -/
theorem C7_download_batch (cfg : PluginConfig) (env : PullEnv) (st : InstanceState)
    (bodies : Nat → List Nat)
    (hD : 1 ≤ cfg.s3DownloadConcurrency)
    (hbufs : st.downloadBufs.length = cfg.s3DownloadConcurrency)
    (hcb : st.nFilledBufs ≤ st.curBuf)
    (hk : st.lastDownloadedFileNum < st.files.length)
    (hdl : ∀ i, i < min cfg.s3DownloadConcurrency
        (st.files.length - st.lastDownloadedFileNum) →
      env.s3Download ((st.files.getD (st.lastDownloadedFileNum + i) ⟨[], false⟩).name)
        = Except.ok (bodies i)) :
    (readNextFileS3 cfg env st).1 = Except.ok (bodies 0)
    ∧ ((readNextFileS3 cfg env st).2).nFilledBufs
        = min cfg.s3DownloadConcurrency
            (st.files.length - st.lastDownloadedFileNum)
    ∧ ((readNextFileS3 cfg env st).2).lastDownloadedFileNum
        = st.lastDownloadedFileNum
          + min cfg.s3DownloadConcurrency
              (st.files.length - st.lastDownloadedFileNum)
    ∧ ((readNextFileS3 cfg env st).2).curBuf = 1
    ∧ (∀ i, i < min cfg.s3DownloadConcurrency
          (st.files.length - st.lastDownloadedFileNum) →
        ((readNextFileS3 cfg env st).2).downloadBufs.getD i [] = bodies i)
    ∧ (∀ s : InstanceState, s.curBuf < s.nFilledBufs →
        readNextFileS3 cfg env s
          = (Except.ok (s.downloadBufs.getD s.curBuf []),
             { s with curBuf := s.curBuf + 1 })) := by
  have hnlt : ¬ st.curBuf < st.nFilledBufs := by omega
  have hbs1 : 1 ≤ min cfg.s3DownloadConcurrency
      (st.files.length - st.lastDownloadedFileNum) := by
    omega
  have hfslen : ((st.files.drop st.lastDownloadedFileNum).take
      (min cfg.s3DownloadConcurrency
        (st.files.length - st.lastDownloadedFileNum))).length
      = min cfg.s3DownloadConcurrency
          (st.files.length - st.lastDownloadedFileNum) := by
    simp only [List.length_take, List.length_drop]
    omega
  have hgetfs : ∀ i, i < min cfg.s3DownloadConcurrency
      (st.files.length - st.lastDownloadedFileNum) →
      ((st.files.drop st.lastDownloadedFileNum).take
          (min cfg.s3DownloadConcurrency
            (st.files.length - st.lastDownloadedFileNum))).getD i ⟨[], false⟩
        = st.files.getD (st.lastDownloadedFileNum + i) ⟨[], false⟩ := by
    intro i hi
    rw [List.getD_eq_getElem?_getD, List.getD_eq_getElem?_getD]
    rw [List.getElem?_take_of_lt hi, List.getElem?_drop]
  obtain ⟨ht, hlen, _, hhigh⟩ := downloadBatch_ok env
    ((st.files.drop st.lastDownloadedFileNum).take
      (min cfg.s3DownloadConcurrency
        (st.files.length - st.lastDownloadedFileNum)))
    0 st.downloadBufs bodies
    (fun i hi => by
      rw [hfslen] at hi
      rw [hgetfs i hi]
      exact hdl i hi)
  have hpair : downloadBatch env
      ((st.files.drop st.lastDownloadedFileNum).take
        (min cfg.s3DownloadConcurrency
          (st.files.length - st.lastDownloadedFileNum)))
      0 st.downloadBufs
      = ((downloadBatch env
          ((st.files.drop st.lastDownloadedFileNum).take
            (min cfg.s3DownloadConcurrency
              (st.files.length - st.lastDownloadedFileNum)))
          0 st.downloadBufs).1, []) := by
    rw [← ht]
  have hres : readNextFileS3 cfg env st
      = (Except.ok (((downloadBatch env
            ((st.files.drop st.lastDownloadedFileNum).take
              (min cfg.s3DownloadConcurrency
                (st.files.length - st.lastDownloadedFileNum)))
            0 st.downloadBufs).1).getD 0 []),
         { st with
             nFilledBufs := min cfg.s3DownloadConcurrency
               (st.files.length - st.lastDownloadedFileNum),
             downloadBufs := (downloadBatch env
               ((st.files.drop st.lastDownloadedFileNum).take
                 (min cfg.s3DownloadConcurrency
                   (st.files.length - st.lastDownloadedFileNum)))
               0 st.downloadBufs).1,
             lastDownloadedFileNum := st.lastDownloadedFileNum
               + min cfg.s3DownloadConcurrency
                   (st.files.length - st.lastDownloadedFileNum),
             curBuf := 1 }) := by
    unfold readNextFileS3
    rw [if_neg hnlt, hpair]
  have hslot : ∀ i, i < min cfg.s3DownloadConcurrency
      (st.files.length - st.lastDownloadedFileNum) →
      ((downloadBatch env
          ((st.files.drop st.lastDownloadedFileNum).take
            (min cfg.s3DownloadConcurrency
              (st.files.length - st.lastDownloadedFileNum)))
          0 st.downloadBufs).1).getD i [] = bodies i := by
    intro i hi
    have := hhigh i (by rw [hfslen]; exact hi) (by rw [hfslen]; omega)
    simpa using this
  refine ⟨?_, ?_, ?_, ?_, ?_, ?_⟩
  · rw [hres]
    simp only []
    rw [hslot 0 (by omega)]
  · rw [hres]
  · rw [hres]
  · rw [hres]
  · intro i hi
    rw [hres]
    exact hslot i hi
  · intro s hs
    unfold readNextFileS3
    rw [if_pos hs]

/-- Witness for C7: concurrency 2, three files a/b/c of which none is
    downloaded yet, all fetches succeed; the first conjunct of the claim
    theorem gives back the body of file a. -/
theorem C7_download_batch_witness :
    (readNextFileS3 ⟨2, false, false⟩
      { sqsReceive := Except.error 0, sqsDelete := Except.ok (),
        s3Download := fun n => if n = ['a'] then Except.ok [10]
          else if n = ['b'] then Except.ok [20] else Except.error 0,
        readLocal := fun _ => Except.error 0,
        gunzip := fun _ => none, jsonParse := fun _ => none,
        parseRFC3339 := fun _ => none, write := fun _ => Except.error 0 }
      { openMode := OpenMode.s3Mode,
        files := [⟨['a'], false⟩, ⟨['b'], false⟩, ⟨['c'], false⟩],
        curFileNum := 0, evtJSONStrings := [], evtJSONListPos := 0,
        bucket := [], lastDownloadedFileNum := 0, nFilledBufs := 0,
        curBuf := 0, downloadBufs := [[], []] }).1 = Except.ok [10] :=
  (C7_download_batch ⟨2, false, false⟩
      { sqsReceive := Except.error 0, sqsDelete := Except.ok (),
        s3Download := fun n => if n = ['a'] then Except.ok [10]
          else if n = ['b'] then Except.ok [20] else Except.error 0,
        readLocal := fun _ => Except.error 0,
        gunzip := fun _ => none, jsonParse := fun _ => none,
        parseRFC3339 := fun _ => none, write := fun _ => Except.error 0 }
      { openMode := OpenMode.s3Mode,
        files := [⟨['a'], false⟩, ⟨['b'], false⟩, ⟨['c'], false⟩],
        curFileNum := 0, evtJSONStrings := [], evtJSONListPos := 0,
        bucket := [], lastDownloadedFileNum := 0, nFilledBufs := 0,
        curBuf := 0, downloadBufs := [[], []] }
      (fun i => if i = 0 then [10] else [20])
      (by decide) (by decide) (by decide) (by decide)
      (fun i hi => by
        have h2 : i < 2 := hi
        interval_cases i <;> rfl)).1
